import Mathlib

/-!
Verification of the request-router of the demo e-commerce worker
(`src/index.js`) against its natural-language specification.

The JavaScript code is shallowly embedded: JSON values become the
inductive type `JSValue` (numbers restricted to integers; IEEE doubles
are out of scope), the two external stores (the products KV namespace
and the D1 `orders` table) become explicit data in an `Env` record, the
nondeterministic collaborators (clock, `Math.random`, store failures)
become oracle fields of `Env`, and every handler becomes a total Lean
function from the request data and `Env` to an HTTP response plus the
resulting order-store contents.
-/

/-- A JavaScript JSON value, as produced by `JSON.parse` / consumed by
`JSON.stringify`.  Numbers are modelled as integers (the claims under
check never depend on non-integral numbers); objects keep their fields
in insertion order, as JS objects do. -/
inductive JSValue where
  | null : JSValue
  | bool : Bool → JSValue
  | num : Int → JSValue
  | str : String → JSValue
  | arr : List JSValue → JSValue
  | obj : List (String × JSValue) → JSValue
  deriving Repr

mutual

/-- Decidable equality on `JSValue` (JS deep equality of JSON trees). -/
def JSValue.beq : JSValue → JSValue → Bool
  | .null, .null => true
  | .bool a, .bool b => a == b
  | .num a, .num b => a == b
  | .str a, .str b => a == b
  | .arr a, .arr b => JSValue.beqList a b
  | .obj a, .obj b => JSValue.beqObj a b
  | _, _ => false

def JSValue.beqList : List JSValue → List JSValue → Bool
  | [], [] => true
  | a :: as, b :: bs => JSValue.beq a b && JSValue.beqList as bs
  | _, _ => false

def JSValue.beqObj : List (String × JSValue) → List (String × JSValue) → Bool
  | [], [] => true
  | (ka, va) :: as, (kb, vb) :: bs => ka == kb && JSValue.beq va vb && JSValue.beqObj as bs
  | _, _ => false

end

mutual

theorem JSValue.beq_iff : ∀ a b : JSValue, JSValue.beq a b = true ↔ a = b
  | .null, b => by cases b <;> simp [JSValue.beq]
  | .bool a, b => by cases b <;> simp [JSValue.beq]
  | .num a, b => by cases b <;> simp [JSValue.beq]
  | .str a, b => by cases b <;> simp [JSValue.beq]
  | .arr a, b => by
      cases b <;> simp [JSValue.beq]
      exact JSValue.beqList_iff a _
  | .obj a, b => by
      cases b <;> simp [JSValue.beq]
      exact JSValue.beqObj_iff a _

theorem JSValue.beqList_iff : ∀ a b : List JSValue, JSValue.beqList a b = true ↔ a = b
  | [], b => by cases b <;> simp [JSValue.beqList]
  | x :: xs, b => by
      cases b with
      | nil => simp [JSValue.beqList]
      | cons y ys =>
          simp only [JSValue.beqList, Bool.and_eq_true, List.cons.injEq]
          rw [JSValue.beq_iff, JSValue.beqList_iff]

theorem JSValue.beqObj_iff : ∀ a b : List (String × JSValue),
    JSValue.beqObj a b = true ↔ a = b
  | [], b => by cases b <;> simp [JSValue.beqObj]
  | (k, v) :: xs, b => by
      cases b with
      | nil => simp [JSValue.beqObj]
      | cons y ys =>
          obtain ⟨k2, v2⟩ := y
          simp only [JSValue.beqObj, Bool.and_eq_true, List.cons.injEq, Prod.mk.injEq,
            beq_iff_eq]
          rw [JSValue.beq_iff, JSValue.beqObj_iff]

end

instance : DecidableEq JSValue := fun a b =>
  decidable_of_iff (JSValue.beq a b = true) (JSValue.beq_iff a b)

/-- JS truthiness of a JSON value (`if (v)`): `null`, `false`, `0` and
`""` are falsy; arrays and objects are always truthy. -/
def truthy : JSValue → Bool
  | .null => false
  | .bool b => b
  | .num n => n != 0
  | .str s => s != ""
  | .arr _ => true
  | .obj _ => true

/-- Property access `v.k` on a JS value obtained from JSON: on an object
it is the last binding for `k` (duplicate keys in a JSON text resolve to
the last one), on any other non-null value it is `undefined`, modelled
as `none`.  Access on `null` throws and is handled separately by the
callers that can reach it. -/
def jsGet (v : JSValue) (k : String) : Option JSValue :=
  match v with
  | .obj kvs => (kvs.filter (fun p => p.1 = k)).getLast?.map Prod.snd
  | _ => none

/-- Truthiness of a possibly-`undefined` value (`undefined` is falsy). -/
def truthyO : Option JSValue → Bool
  | none => false
  | some v => truthy v

/-- `Array.isArray` on a possibly-`undefined` value. -/
def isArrO : Option JSValue → Bool
  | some (.arr _) => true
  | _ => false

/-! ## Decimal numerals

JS renders integral numbers in decimal (`Number::toString`); the
handlers build the order id from `Date.now()` this way and
`JSON.stringify` prints numbers this way. -/

/-- The decimal digit character for `n < 10`. -/
def digitChar (n : Nat) : Char := Char.ofNat (48 + n)

/-- Decimal digits of a natural number, most significant first. -/
def natDigits (n : Nat) : List Char :=
  if n < 10 then [digitChar n]
  else natDigits (n / 10) ++ [digitChar (n % 10)]
decreasing_by exact Nat.div_lt_self (by omega) (by omega)

/-- Reading a digit list back as a number (used by the JSON parser). -/
def digitsToNat (l : List Char) : Nat :=
  l.foldl (fun a c => a * 10 + (c.toNat - 48)) 0

/-- Decimal rendering of an integer, as JS prints number values. -/
def intDigits (n : Int) : List Char :=
  if n < 0 then '-' :: natDigits n.natAbs else natDigits n.toNat

def natStr (n : Nat) : String := String.mk (natDigits n)

def intStr (n : Int) : String := String.mk (intDigits n)

theorem digitChar_isDigit {n : Nat} (h : n < 10) : (digitChar n).isDigit = true := by
  interval_cases n <;> decide

theorem digitChar_toNat {n : Nat} (h : n < 10) : (digitChar n).toNat = 48 + n := by
  interval_cases n <;> decide

theorem natDigits_ne_nil (n : Nat) : natDigits n ≠ [] := by
  rw [natDigits]
  split
  · simp
  · simp

theorem natDigits_isDigit (n : Nat) : ∀ c ∈ natDigits n, c.isDigit = true := by
  induction n using Nat.strong_induction_on with
  | _ n ih =>
    rw [natDigits]
    split
    · next h => simpa using digitChar_isDigit h
    · next h =>
      intro c hc
      rw [List.mem_append] at hc
      rcases hc with hc | hc
      · exact ih (n / 10) (Nat.div_lt_self (by omega) (by omega)) c hc
      · simp only [List.mem_singleton] at hc
        subst hc
        exact digitChar_isDigit (Nat.mod_lt _ (by omega))

theorem foldl_natDigits (n : Nat) : ∀ a : Nat,
    (natDigits n).foldl (fun a c => a * 10 + (c.toNat - 48)) a
      = a * 10 ^ (natDigits n).length + n := by
  induction n using Nat.strong_induction_on with
  | _ n ih =>
    intro a
    rw [natDigits]
    split
    · next h =>
      simp [List.foldl, digitChar_toNat h]
    · next h =>
      rw [List.foldl_append, ih (n / 10) (Nat.div_lt_self (by omega) (by omega)) a]
      simp only [List.foldl, List.length_append, List.length_singleton]
      rw [digitChar_toNat (Nat.mod_lt _ (by omega)), pow_succ]
      have hdm := Nat.div_add_mod n 10
      have : 48 + n % 10 - 48 = n % 10 := by omega
      rw [this]
      set c := a * 10 ^ (natDigits (n / 10)).length with hc
      rw [← mul_assoc]
      omega

theorem digitsToNat_natDigits (n : Nat) : digitsToNat (natDigits n) = n := by
  have := foldl_natDigits n 0
  simpa [digitsToNat] using this

theorem natDigits_injective : Function.Injective natDigits := by
  intro a b h
  have := digitsToNat_natDigits a
  rw [h, digitsToNat_natDigits] at this
  omega

/-! ## JS string and number coercions

These model the implicit conversions the checkout handler performs:
the `item.quantity < 1` comparison and the `sum + item.quantity`
addition in the summary.  `Option Int` models a JS number that may be
`NaN` (`none`); numeric strings are modelled for decimal integers only
(the claims under check never feed other shapes). -/

/-- JS whitespace accepted by string-to-number coercion / JSON. -/
def wsChar (c : Char) : Bool :=
  c = ' ' || c = '\t' || c = '\n' || c = '\r'

mutual

/-- `Array.prototype.toString`, i.e. `join(",")`: the `ToPrimitive`
conversion JS applies to an array in `<` and `+`. -/
def jsArrayJoin : List JSValue → String
  | [] => ""
  | [v] => jsJoinElem v
  | v :: vs => jsJoinElem v ++ "," ++ jsArrayJoin vs

/-- How a single element prints inside `Array.prototype.join`:
`null` becomes the empty string, a nested array its own join, a plain
object `"[object Object]"`. -/
def jsJoinElem : JSValue → String
  | .null => ""
  | .bool b => if b then "true" else "false"
  | .num n => intStr n
  | .str s => s
  | .arr l => jsArrayJoin l
  | .obj _ => "[object Object]"

end

/-- `ToPrimitive` of a JSON value (default hint): identity on
primitives, the comma join on arrays, `"[object Object]"` on objects. -/
def toPrim : JSValue → JSValue
  | .arr l => .str (jsArrayJoin l)
  | .obj _ => .str "[object Object]"
  | v => v

/-- ECMAScript `StringToNumber`, restricted to optionally-signed decimal
integer numerals (hex/float syntax is out of the model's scope): the
whitespace-trimmed empty string is `0`, a non-numeric string is `NaN`
(`none`). -/
def strToNumber (s : String) : Option Int :=
  let t := ((s.data.dropWhile wsChar).reverse.dropWhile wsChar).reverse
  match t with
  | [] => some 0
  | '-' :: ds => if ds ≠ [] ∧ ds.all Char.isDigit then some (-(digitsToNat ds : Int)) else none
  | '+' :: ds => if ds ≠ [] ∧ ds.all Char.isDigit then some (digitsToNat ds : Int) else none
  | ds => if ds.all Char.isDigit then some (digitsToNat ds : Int) else none

/-- `ToNumber` of a JSON value; `none` models `NaN`. -/
def toNumber : JSValue → Option Int
  | .null => some 0
  | .bool b => some (if b then 1 else 0)
  | .num n => some n
  | .str s => strToNumber s
  | .arr l => strToNumber (jsArrayJoin l)
  | .obj _ => none

/-- The test `q < 1` of the item-validation loop, under JS abstract
relational comparison: `ToPrimitive` then numeric comparison, any `NaN`
side making the comparison false. -/
def jsLtOne (q : JSValue) : Bool :=
  match toNumber q with
  | none => false
  | some n => decide (n < 1)

/-- `ToString` of a primitive value (for string concatenation). -/
def primToStr : JSValue → String
  | .null => "null"
  | .bool b => if b then "true" else "false"
  | .num n => intStr n
  | .str s => s
  | .arr l => jsArrayJoin l
  | .obj _ => "[object Object]"

/-- JS `+`: `ToPrimitive` both sides; if either is a string,
concatenate, else add numerically.  (For the non-string primitives the
handler can feed, `ToNumber` never yields `NaN`, so the `getD 0`
default is unreachable.) -/
def jsAdd (a b : JSValue) : JSValue :=
  match toPrim a, toPrim b with
  | .str sa, pb => .str (sa ++ primToStr pb)
  | pa, .str sb => .str (primToStr pa ++ sb)
  | pa, pb => .num ((toNumber pa).getD 0 + (toNumber pb).getD 0)

/-! ## JSON serialization (`JSON.stringify`)

The checkout handler stores `JSON.stringify(items)` in the `items`
column; the read handlers apply `JSON.parse` to it. -/

/-- A lowercase hexadecimal digit, as V8 prints in `\u` escapes. -/
def hexDigit (n : Nat) : Char :=
  if n < 10 then digitChar n else Char.ofNat (97 + (n - 10))

/-- `QuoteJSONString` escaping of one character: quote, backslash and
the named control characters get two-character escapes, remaining
control characters a `\u00XX` escape, everything else passes through
(JSON.stringify does not escape non-ASCII). -/
def escapeChar (c : Char) : List Char :=
  if c = '"' then ['\\', '"']
  else if c = '\\' then ['\\', '\\']
  else if c = '\x08' then ['\\', 'b']
  else if c = '\x0c' then ['\\', 'f']
  else if c = '\n' then ['\\', 'n']
  else if c = '\r' then ['\\', 'r']
  else if c = '\t' then ['\\', 't']
  else if c.toNat < 0x20 then
    ['\\', 'u', '0', '0', hexDigit (c.toNat / 16), hexDigit (c.toNat % 16)]
  else [c]

def escapeList : List Char → List Char
  | [] => []
  | c :: cs => escapeChar c ++ escapeList cs

mutual

/-- `JSON.stringify` (compact form, as the handler calls it). -/
def stringifyL : JSValue → List Char
  | .null => "null".data
  | .bool true => "true".data
  | .bool false => "false".data
  | .num n => intDigits n
  | .str s => '"' :: (escapeList s.data ++ ['"'])
  | .arr l => '[' :: (stringifyElems l ++ [']'])
  | .obj kvs => '{' :: (stringifyMembers kvs ++ ['}'])

/-- Comma-separated serialization of array elements. -/
def stringifyElems : List JSValue → List Char
  | [] => []
  | [v] => stringifyL v
  | v :: vs => stringifyL v ++ ',' :: stringifyElems vs

/-- Comma-separated serialization of object members. -/
def stringifyMembers : List (String × JSValue) → List Char
  | [] => []
  | [(k, v)] => '"' :: (escapeList k.data ++ '"' :: ':' :: stringifyL v)
  | (k, v) :: kvs =>
      ('"' :: (escapeList k.data ++ '"' :: ':' :: stringifyL v)) ++ ',' :: stringifyMembers kvs

end

def jsonStringify (v : JSValue) : String := String.mk (stringifyL v)

/-! ## JSON parsing (`JSON.parse`)

A recursive-descent reader of the character list.  A fuel parameter
bounds the nesting; the top-level entry point supplies more fuel than
any input can consume, so fuel exhaustion is unreachable there.
Numeric literals are read as optionally-signed decimal integers
(float/exponent syntax and `\u` surrogate pairing are outside the
model, as are IEEE doubles altogether). -/

/-- Skip JSON whitespace. -/
def skipWs : List Char → List Char
  | [] => []
  | c :: r => if wsChar c then skipWs r else c :: r

/-- Value of a hexadecimal digit character. -/
def hexVal (c : Char) : Option Nat :=
  if c.isDigit then some (c.toNat - 48)
  else if 'a' ≤ c && c ≤ 'f' then some (c.toNat - 87)
  else if 'A' ≤ c && c ≤ 'F' then some (c.toNat - 55)
  else none

/-- One-character JSON string escapes. -/
def escDecode (c : Char) : Option Char :=
  if c = '"' then some '"'
  else if c = '\\' then some '\\'
  else if c = '/' then some '/'
  else if c = 'b' then some '\x08'
  else if c = 'f' then some '\x0c'
  else if c = 'n' then some '\n'
  else if c = 'r' then some '\r'
  else if c = 't' then some '\t'
  else none

/-- Read the body of a JSON string up to its closing quote, decoding
escapes and rejecting raw control characters. -/
def parseStrChars : List Char → Except String (List Char × List Char)
  | [] => .error "Unterminated string in JSON"
  | c :: rest =>
      if c = '"' then .ok ([], rest)
      else if c = '\\' then
        match rest with
        | [] => .error "Unterminated string in JSON"
        | e :: rest2 =>
          if e = 'u' then
            match rest2 with
            | a :: b :: c2 :: d :: rest3 =>
                (match hexVal a, hexVal b, hexVal c2, hexVal d with
                | some x1, some x2, some x3, some x4 =>
                    (match parseStrChars rest3 with
                    | .ok (cs, r) =>
                        .ok (Char.ofNat (((x1 * 16 + x2) * 16 + x3) * 16 + x4) :: cs, r)
                    | .error e2 => .error e2)
                | _, _, _, _ => .error "Bad Unicode escape in JSON")
            | _ => .error "Bad Unicode escape in JSON"
          else
            match escDecode e with
            | some c2 =>
                (match parseStrChars rest2 with
                | .ok (cs, r) => .ok (c2 :: cs, r)
                | .error e2 => .error e2)
            | none => .error "Bad escaped character in JSON"
      else if c.toNat < 0x20 then .error "Bad control character in JSON"
      else
        (match parseStrChars rest with
        | .ok (cs, r) => .ok (c :: cs, r)
        | .error e => .error e)

/-- Read a JSON number (integral decimal form), rejecting a bare sign
and leading zeros as `JSON.parse` does. -/
def parseJNum (s : List Char) : Except String (Int × List Char) :=
  match s with
  | [] => .error "Unexpected end of JSON input"
  | c :: rest =>
    if c = '-' then
      let ds := rest.takeWhile Char.isDigit
      if ds = [] then .error "Unexpected token - in JSON"
      else if ds.length > 1 ∧ ds.head? = some '0' then .error "Leading zero in JSON number"
      else .ok (-(digitsToNat ds : Int), rest.dropWhile Char.isDigit)
    else
      let ds := (c :: rest).takeWhile Char.isDigit
      if ds = [] then .error "Unexpected token in JSON"
      else if ds.length > 1 ∧ ds.head? = some '0' then .error "Leading zero in JSON number"
      else .ok ((digitsToNat ds : Int), (c :: rest).dropWhile Char.isDigit)

mutual

/-- `JSON.parse`, value production. -/
def parseVal : Nat → List Char → Except String (JSValue × List Char)
  | 0, _ => .error "JSON too deeply nested"
  | fuel + 1, s =>
    match skipWs s with
    | [] => .error "Unexpected end of JSON input"
    | c :: r =>
      if c = 'n' then
        (match r with
        | 'u' :: 'l' :: 'l' :: r2 => .ok (.null, r2)
        | _ => .error "Unexpected token n in JSON")
      else if c = 't' then
        (match r with
        | 'r' :: 'u' :: 'e' :: r2 => .ok (.bool true, r2)
        | _ => .error "Unexpected token t in JSON")
      else if c = 'f' then
        (match r with
        | 'a' :: 'l' :: 's' :: 'e' :: r2 => .ok (.bool false, r2)
        | _ => .error "Unexpected token f in JSON")
      else if c = '"' then
        (match parseStrChars r with
        | .ok (cs, r2) => .ok (.str (String.mk cs), r2)
        | .error e => .error e)
      else if c = '[' then
        if (skipWs r).head? = some ']' then .ok (.arr [], (skipWs r).tail)
        else
          (match parseElems fuel (skipWs r) with
          | .ok (vs, r3) => .ok (.arr vs, r3)
          | .error e => .error e)
      else if c = '{' then
        if (skipWs r).head? = some '}' then .ok (.obj [], (skipWs r).tail)
        else
          (match parseMembers fuel (skipWs r) with
          | .ok (kvs, r3) => .ok (.obj kvs, r3)
          | .error e => .error e)
      else
        (match parseJNum (c :: r) with
        | .ok (n, r2) => .ok (.num n, r2)
        | .error e => .error e)

/-- `JSON.parse`, the elements of a non-empty array (after `[`). -/
def parseElems : Nat → List Char → Except String (List JSValue × List Char)
  | 0, _ => .error "JSON too deeply nested"
  | fuel + 1, s =>
    match parseVal (fuel + 1) s with
    | .error e => .error e
    | .ok (v, r) =>
      match skipWs r with
      | ',' :: r2 =>
          (match parseElems fuel r2 with
          | .ok (vs, r3) => .ok (v :: vs, r3)
          | .error e => .error e)
      | ']' :: r2 => .ok ([v], r2)
      | _ => .error "Expected comma or bracket after JSON array element"

/-- `JSON.parse`, the members of a non-empty object (after the brace). -/
def parseMembers : Nat → List Char → Except String (List (String × JSValue) × List Char)
  | 0, _ => .error "JSON too deeply nested"
  | fuel + 1, s =>
    match skipWs s with
    | '"' :: r =>
      (match parseStrChars r with
      | .error e => .error e
      | .ok (ks, r2) =>
        match skipWs r2 with
        | ':' :: r3 =>
          (match parseVal (fuel + 1) r3 with
          | .error e => .error e
          | .ok (v, r4) =>
            match skipWs r4 with
            | ',' :: r5 =>
                (match parseMembers fuel r5 with
                | .ok (kvs, r6) => .ok ((String.mk ks, v) :: kvs, r6)
                | .error e => .error e)
            | '}' :: r5 => .ok ([(String.mk ks, v)], r5)
            | _ => .error "Expected comma or brace after JSON object member")
        | _ => .error "Expected colon in JSON object")
      | _ => .error "Expected property name in JSON object"

end

/-- `JSON.parse`: parse one value and require only whitespace after it.
The fuel `s.data.length + 1` exceeds what reading `s` can consume. -/
def jsonParse (s : String) : Except String JSValue :=
  match parseVal (s.data.length + 1) s.data with
  | .error e => .error e
  | .ok (v, r) =>
      if skipWs r = [] then .ok v else .error "Unexpected non-whitespace after JSON"

/-! ## The printer's output reads back: helper lemmas -/

theorem charOfNat_toNat (c : Char) : Char.ofNat c.toNat = c := by
  have hv : Nat.isValidChar c.toNat := c.valid
  rw [Char.ofNat, dif_pos hv]
  apply Char.ext
  simp only [Char.ofNatAux]
  apply UInt32.ext
  rfl

theorem skipWs_cons {c : Char} {r : List Char} (h : wsChar c = false) :
    skipWs (c :: r) = c :: r := by
  simp [skipWs, h]

theorem ne_of_isDigit {c d : Char} (h : c.isDigit = true) (hd : d.isDigit = false) :
    c ≠ d := by
  intro he
  subst he
  simp [h] at hd

theorem digit_not_ws {c : Char} (h : c.isDigit = true) : wsChar c = false := by
  have h1 : c ≠ ' ' := ne_of_isDigit h (by decide)
  have h2 : c ≠ '\t' := ne_of_isDigit h (by decide)
  have h3 : c ≠ '\n' := ne_of_isDigit h (by decide)
  have h4 : c ≠ '\r' := ne_of_isDigit h (by decide)
  simp [wsChar, h1, h2, h3, h4]

theorem takeWhile_append_all {p : Char → Bool} :
    ∀ (l1 l2 : List Char), (∀ c ∈ l1, p c = true) →
      (∀ c, l2.head? = some c → p c = false) →
      (l1 ++ l2).takeWhile p = l1 ∧ (l1 ++ l2).dropWhile p = l2 := by
  intro l1
  induction l1 with
  | nil =>
    intro l2 _ h2
    cases l2 with
    | nil => simp
    | cons c t =>
      have := h2 c rfl
      simp [List.takeWhile_cons, List.dropWhile_cons, this]
  | cons a l1 ih =>
    intro l2 h1 h2
    have ha : p a = true := h1 a (by simp)
    have hr := ih l2 (fun c hc => h1 c (by simp [hc])) h2
    simp [List.takeWhile_cons, List.dropWhile_cons, ha, hr.1, hr.2]

theorem hexVal_hexDigit {m : Nat} (h : m < 16) : hexVal (hexDigit m) = some m := by
  interval_cases m <;> decide

theorem parseStrChars_escape : ∀ (cs rest : List Char),
    parseStrChars (escapeList cs ++ '"' :: rest) = .ok (cs, rest) := by
  intro cs
  induction cs with
  | nil => intro rest; rw [escapeList, List.nil_append, parseStrChars.eq_def]; simp
  | cons c cs ih =>
    intro rest
    rw [escapeList, escapeChar]
    split_ifs with h1 h2 h3 h4 h5 h6 h7 h8
    · subst h1; rw [List.cons_append, List.cons_append, parseStrChars.eq_def]
      simp [escDecode, ih]
    · subst h2; rw [List.cons_append, List.cons_append, parseStrChars.eq_def]
      simp [escDecode, ih]
    · subst h3; rw [List.cons_append, List.cons_append, parseStrChars.eq_def]
      simp [escDecode, ih]
    · subst h4; rw [List.cons_append, List.cons_append, parseStrChars.eq_def]
      simp [escDecode, ih]
    · subst h5; rw [List.cons_append, List.cons_append, parseStrChars.eq_def]
      simp [escDecode, ih]
    · subst h6; rw [List.cons_append, List.cons_append, parseStrChars.eq_def]
      simp [escDecode, ih]
    · subst h7; rw [List.cons_append, List.cons_append, parseStrChars.eq_def]
      simp [escDecode, ih]
    · have hd1 : c.toNat / 16 < 16 := by omega
      have hd2 : c.toNat % 16 < 16 := by omega
      have harith : ((0 * 16 + 0) * 16 + c.toNat / 16) * 16 + c.toNat % 16 = c.toNat := by
        omega
      rw [parseStrChars.eq_def]
      simp only [List.cons_append, reduceIte, hexVal_hexDigit hd1, hexVal_hexDigit hd2]
      simp [hexVal, ih]
      rw [show c.toNat / 16 * 16 + c.toNat % 16 = c.toNat by omega, charOfNat_toNat]
    · rw [List.cons_append, parseStrChars.eq_def]
      simp [h1, h2, h8, ih]

theorem natDigits_head? (n : Nat) (hn : n ≠ 0) :
    ∀ c, (natDigits n).head? = some c → c ≠ '0' := by
  induction n using Nat.strong_induction_on with
  | _ n ih =>
    intro c hc
    rw [natDigits] at hc
    split at hc
    · next h =>
      simp only [List.head?_cons, Option.some.injEq] at hc
      subst hc
      intro he
      have : n < 10 := h
      interval_cases n
      · exact hn rfl
      all_goals simp [digitChar] at he
    · next h =>
      rw [List.head?_append_of_ne_nil _ (natDigits_ne_nil _)] at hc
      exact ih (n / 10) (Nat.div_lt_self (by omega) (by omega)) (by omega) c hc

/-- After a printed number the next character must not extend it;
inside a serialized document it is always a separator. -/
def noDigitHead (rest : List Char) : Prop :=
  ∀ c, rest.head? = some c → c.isDigit = false

theorem natDigits_length_one {m : Nat} (h : m < 10) : (natDigits m).length = 1 := by
  rw [natDigits, if_pos h]
  rfl

theorem natDigits_no_leading_zero (m : Nat) :
    ¬((natDigits m).length > 1 ∧ (natDigits m).head? = some '0') := by
  rintro ⟨hl, hh⟩
  by_cases hm : m < 10
  · rw [natDigits_length_one hm] at hl
    omega
  · exact natDigits_head? m (by omega) '0' hh rfl

theorem parseJNum_natDigits_aux (m : Nat) (rest : List Char) (hrest : noDigitHead rest) :
    (natDigits m ++ rest).takeWhile Char.isDigit = natDigits m
      ∧ (natDigits m ++ rest).dropWhile Char.isDigit = rest :=
  takeWhile_append_all (natDigits m) rest (natDigits_isDigit m) hrest

theorem parseJNum_intDigits (n : Int) (rest : List Char) (hrest : noDigitHead rest) :
    parseJNum (intDigits n ++ rest) = .ok (n, rest) := by
  rw [intDigits]
  split_ifs with hneg
  · have htw := parseJNum_natDigits_aux n.natAbs rest hrest
    rw [List.cons_append, parseJNum.eq_def]
    simp only [reduceIte, htw.1, htw.2]
    rw [if_neg (by simp [natDigits_ne_nil]), if_neg (natDigits_no_leading_zero _)]
    have : -(digitsToNat (natDigits n.natAbs) : Int) = n := by
      rw [digitsToNat_natDigits]
      omega
    rw [this]
  · obtain ⟨c, cs, hcc⟩ : ∃ c cs, natDigits n.toNat = c :: cs := by
      cases h : natDigits n.toNat with
      | nil => exact absurd h (natDigits_ne_nil _)
      | cons c cs => exact ⟨c, cs, rfl⟩
    have hc : c.isDigit = true := by
      have := natDigits_isDigit n.toNat
      rw [hcc] at this
      exact this c (by simp)
    have hcne : c ≠ '-' := ne_of_isDigit hc (by decide)
    have htw := parseJNum_natDigits_aux n.toNat rest hrest
    rw [hcc] at htw
    rw [hcc, List.cons_append, parseJNum.eq_def]
    simp only [if_neg hcne]
    rw [← List.cons_append]
    simp only [htw.1, htw.2]
    rw [if_neg (by simp), if_neg (by rw [← hcc]; exact natDigits_no_leading_zero _)]
    rw [← hcc, digitsToNat_natDigits]
    have : ((n.toNat : Int)) = n := by omega
    rw [this]

theorem intDigits_head (n : Int) : ∃ c cs, intDigits n = c :: cs ∧ wsChar c = false ∧
    c ≠ 'n' ∧ c ≠ 't' ∧ c ≠ 'f' ∧ c ≠ '"' ∧ c ≠ '[' ∧ c ≠ '{' ∧ c ≠ ']' ∧ c ≠ '}' := by
  rw [intDigits]
  split_ifs with h
  · exact ⟨'-', _, rfl, by decide, by decide, by decide, by decide, by decide, by decide,
      by decide, by decide, by decide⟩
  · obtain ⟨c, cs, hcc⟩ : ∃ c cs, natDigits n.toNat = c :: cs := by
      cases hh : natDigits n.toNat with
      | nil => exact absurd hh (natDigits_ne_nil _)
      | cons c cs => exact ⟨c, cs, rfl⟩
    have hc : c.isDigit = true := by
      have := natDigits_isDigit n.toNat
      rw [hcc] at this
      exact this c (by simp)
    exact ⟨c, cs, hcc, digit_not_ws hc, ne_of_isDigit hc (by decide),
      ne_of_isDigit hc (by decide), ne_of_isDigit hc (by decide),
      ne_of_isDigit hc (by decide), ne_of_isDigit hc (by decide),
      ne_of_isDigit hc (by decide), ne_of_isDigit hc (by decide),
      ne_of_isDigit hc (by decide)⟩

theorem stringifyL_head (v : JSValue) : ∃ c cs, stringifyL v = c :: cs ∧
    wsChar c = false ∧ c ≠ ']' ∧ c ≠ '}' := by
  cases v with
  | num n =>
    obtain ⟨c, cs, hcc, hws, _, _, _, _, _, _, hrb, hcb⟩ := intDigits_head n
    exact ⟨c, cs, by rw [stringifyL, hcc], hws, hrb, hcb⟩
  | null => refine ⟨'n', _, rfl, ?_, ?_, ?_⟩ <;> decide
  | bool b => cases b with
    | true => refine ⟨'t', _, rfl, ?_, ?_, ?_⟩ <;> decide
    | false => refine ⟨'f', _, rfl, ?_, ?_, ?_⟩ <;> decide
  | str s => refine ⟨'"', _, rfl, ?_, ?_, ?_⟩ <;> decide
  | arr l => refine ⟨'[', _, rfl, ?_, ?_, ?_⟩ <;> decide
  | obj kvs => refine ⟨'{', _, rfl, ?_, ?_, ?_⟩ <;> decide

theorem stringify_length_pos (v : JSValue) : 1 ≤ (stringifyL v).length := by
  obtain ⟨c, cs, hcc, _⟩ := stringifyL_head v
  rw [hcc]
  simp

theorem stringifyElems_cons (v : JSValue) (vs : List JSValue) :
    ∃ t, stringifyElems (v :: vs) = stringifyL v ++ t := by
  cases vs with
  | nil => exact ⟨[], by rw [stringifyElems]; simp⟩
  | cons v2 vs2 =>
    exact ⟨',' :: stringifyElems (v2 :: vs2), by rw [stringifyElems]; simp⟩

theorem stringifyMembers_head (k : String) (v : JSValue) (kvs : List (String × JSValue)) :
    ∃ t, stringifyMembers ((k, v) :: kvs) = '"' :: t := by
  cases kvs with
  | nil => exact ⟨_, by rw [stringifyMembers]⟩
  | cons kv2 kvs2 =>
    exact ⟨(escapeList k.data ++ '"' :: ':' :: stringifyL v) ++ ',' :: stringifyMembers (kv2 :: kvs2),
      by rw [stringifyMembers] <;> simp⟩

theorem noDigitHead_cons {c : Char} (h : c.isDigit = false) (r : List Char) :
    noDigitHead (c :: r) := by
  intro c2 hc2
  simp only [List.head?_cons, Option.some.injEq] at hc2
  subst hc2
  exact h

theorem stringifyElems_eq_cons_cons (v v2 : JSValue) (vs2 : List JSValue) :
    stringifyElems (v :: v2 :: vs2) = stringifyL v ++ ',' :: stringifyElems (v2 :: vs2) := by
  rw [stringifyElems]
  simp

theorem stringifyMembers_eq_single (k : String) (v : JSValue) :
    stringifyMembers [(k, v)] = '"' :: (escapeList k.data ++ '"' :: ':' :: stringifyL v) := by
  rw [stringifyMembers]

theorem stringifyMembers_eq_cons_cons (k : String) (v : JSValue) (kv2 : String × JSValue)
    (kvs2 : List (String × JSValue)) :
    stringifyMembers ((k, v) :: kv2 :: kvs2)
      = ('"' :: (escapeList k.data ++ '"' :: ':' :: stringifyL v))
          ++ ',' :: stringifyMembers (kv2 :: kvs2) := by
  rw [stringifyMembers]
  simp

/-- The key fact behind round-trip fidelity: reading the printer's
output (followed by any non-extending remainder) yields the printed
value and leaves the remainder, for every sufficient fuel. -/
theorem parse_stringify : ∀ fuel : Nat,
    (∀ (v : JSValue) (rest : List Char), (stringifyL v).length < fuel → noDigitHead rest →
        parseVal fuel (stringifyL v ++ rest) = .ok (v, rest))
    ∧ (∀ (l : List JSValue) (rest : List Char), l ≠ [] →
        (stringifyElems l).length + 1 < fuel →
        parseElems fuel (stringifyElems l ++ ']' :: rest) = .ok (l, rest))
    ∧ (∀ (kvs : List (String × JSValue)) (rest : List Char), kvs ≠ [] →
        (stringifyMembers kvs).length + 1 < fuel →
        parseMembers fuel (stringifyMembers kvs ++ '}' :: rest) = .ok (kvs, rest)) := by
  intro fuel
  induction fuel using Nat.strong_induction_on with
  | _ fuel ih =>
    have hval : ∀ (v : JSValue) (rest : List Char), (stringifyL v).length < fuel →
        noDigitHead rest → parseVal fuel (stringifyL v ++ rest) = .ok (v, rest) := by
      intro v rest hlen hrest
      obtain ⟨f, rfl⟩ : ∃ f, fuel = f + 1 :=
        ⟨fuel - 1, by have := stringify_length_pos v; omega⟩
      cases v with
      | null =>
        rw [stringifyL, parseVal.eq_def]
        rw [show ("null" : String).data = 'n' :: 'u' :: 'l' :: 'l' :: [] from rfl]
        simp [skipWs, wsChar]
      | bool b =>
        cases b with
        | true =>
          rw [stringifyL, parseVal.eq_def]
          rw [show ("true" : String).data = 't' :: 'r' :: 'u' :: 'e' :: [] from rfl]
          simp [skipWs, wsChar]
        | false =>
          rw [stringifyL, parseVal.eq_def]
          rw [show ("false" : String).data = 'f' :: 'a' :: 'l' :: 's' :: 'e' :: [] from rfl]
          simp [skipWs, wsChar]
      | num n =>
        obtain ⟨c, cs, hcc, hws, hn, ht, hf, hq, hlb, hcb, hrb, hclb⟩ := intDigits_head n
        rw [stringifyL, hcc, List.cons_append, parseVal.eq_def]
        simp only []
        rw [skipWs_cons hws]
        simp only [if_neg hn, if_neg ht, if_neg hf, if_neg hq, if_neg hlb, if_neg hcb]
        rw [← List.cons_append, ← hcc, parseJNum_intDigits n rest hrest]
      | str s =>
        rw [stringifyL, parseVal.eq_def]
        simp only [List.cons_append, List.append_assoc, List.singleton_append]
        rw [skipWs_cons (by decide)]
        simp [parseStrChars_escape]
      | arr l =>
        cases l with
        | nil =>
          rw [stringifyL, parseVal.eq_def]
          simp [stringifyElems, skipWs, wsChar]
        | cons v1 vs =>
          obtain ⟨t, htl⟩ := stringifyElems_cons v1 vs
          obtain ⟨c, cs, hcc, hws, hrb, hcb⟩ := stringifyL_head v1
          have hshape : stringifyElems (v1 :: vs) ++ ']' :: rest
              = c :: (cs ++ t ++ ']' :: rest) := by
            rw [htl, hcc]
            simp
          have hskip : skipWs (stringifyElems (v1 :: vs) ++ ']' :: rest)
              = stringifyElems (v1 :: vs) ++ ']' :: rest := by
            rw [hshape]
            exact skipWs_cons hws
          have hhead : (stringifyElems (v1 :: vs) ++ ']' :: rest).head? = some c := by
            rw [hshape]
            simp
          have hlen2 : (stringifyElems (v1 :: vs)).length + 1 < f := by
            rw [stringifyL] at hlen
            simp only [List.length_cons, List.length_append, List.length_singleton] at hlen
            omega
          have helems := (ih f (by omega)).2.1 (v1 :: vs) rest (by simp) hlen2
          rw [stringifyL, parseVal.eq_def]
          simp only [List.cons_append, List.append_assoc, List.nil_append,
            List.singleton_append]
          rw [skipWs_cons (by decide)]
          simp [hskip, hhead, hrb, helems]
      | obj kvs =>
        cases kvs with
        | nil =>
          rw [stringifyL, parseVal.eq_def]
          simp [stringifyMembers, skipWs, wsChar]
        | cons kv1 kvs2 =>
          obtain ⟨k1, v1⟩ := kv1
          obtain ⟨t, htl⟩ := stringifyMembers_head k1 v1 kvs2
          have hshape : stringifyMembers ((k1, v1) :: kvs2) ++ '}' :: rest
              = '"' :: (t ++ '}' :: rest) := by
            rw [htl]
            simp
          have hskip : skipWs (stringifyMembers ((k1, v1) :: kvs2) ++ '}' :: rest)
              = stringifyMembers ((k1, v1) :: kvs2) ++ '}' :: rest := by
            rw [hshape]
            exact skipWs_cons (by decide)
          have hhead : (stringifyMembers ((k1, v1) :: kvs2) ++ '}' :: rest).head?
              = some '"' := by
            rw [hshape]
            simp
          have hlen2 : (stringifyMembers ((k1, v1) :: kvs2)).length + 1 < f := by
            rw [stringifyL] at hlen
            simp only [List.length_cons, List.length_append, List.length_singleton] at hlen
            omega
          have hmems := (ih f (by omega)).2.2 ((k1, v1) :: kvs2) rest (by simp) hlen2
          rw [stringifyL, parseVal.eq_def]
          simp only [List.cons_append, List.append_assoc, List.nil_append,
            List.singleton_append]
          rw [skipWs_cons (by decide)]
          simp [hskip, hhead, hmems]
    refine ⟨hval, ?_, ?_⟩
    · intro l rest hne hlen
      obtain ⟨f, rfl⟩ : ∃ f, fuel = f + 1 := ⟨fuel - 1, by omega⟩
      cases l with
      | nil => exact absurd rfl hne
      | cons v vs =>
        cases vs with
        | nil =>
          have hv := hval v (']' :: rest)
            (by rw [stringifyElems] at hlen; omega)
            (noDigitHead_cons (by decide) rest)
          rw [stringifyElems, parseElems.eq_def]
          simp [hv, skipWs, wsChar]
        | cons v2 vs2 =>
          have hlsv := stringify_length_pos v
          have hlen1 : (stringifyL v).length < f + 1 := by
            rw [stringifyElems_eq_cons_cons] at hlen
            simp only [List.length_append, List.length_cons] at hlen
            omega
          have hlen2 : (stringifyElems (v2 :: vs2)).length + 1 < f := by
            rw [stringifyElems_eq_cons_cons] at hlen
            simp only [List.length_append, List.length_cons] at hlen
            omega
          have hv := hval v (',' :: (stringifyElems (v2 :: vs2) ++ ']' :: rest)) hlen1
            (noDigitHead_cons (by decide) _)
          have hrec := (ih f (by omega)).2.1 (v2 :: vs2) rest (by simp) hlen2
          rw [stringifyElems_eq_cons_cons, parseElems.eq_def]
          simp only [List.cons_append, List.append_assoc, List.nil_append,
            List.singleton_append]
          rw [hv]
          simp [skipWs, wsChar, hrec]
    · intro kvs rest hne hlen
      obtain ⟨f, rfl⟩ : ∃ f, fuel = f + 1 := ⟨fuel - 1, by omega⟩
      cases kvs with
      | nil => exact absurd rfl hne
      | cons kv1 kvs2 =>
        obtain ⟨k, v⟩ := kv1
        cases kvs2 with
        | nil =>
          have hv := hval v ('}' :: rest)
            (by
              rw [stringifyMembers_eq_single] at hlen
              simp only [List.length_cons, List.length_append] at hlen
              omega)
            (noDigitHead_cons (by decide) rest)
          rw [stringifyMembers_eq_single, parseMembers.eq_def]
          simp only [List.cons_append, List.append_assoc, List.nil_append,
            List.singleton_append]
          rw [skipWs_cons (by decide)]
          simp only [parseStrChars_escape]
          simp [skipWs, wsChar]
          rw [hv]
          simp [skipWs, wsChar]
        | cons kv2 kvs3 =>
          have hlen1 : (stringifyL v).length < f + 1 := by
            rw [stringifyMembers_eq_cons_cons] at hlen
            simp only [List.length_append, List.length_cons] at hlen
            omega
          have hlen2 : (stringifyMembers (kv2 :: kvs3)).length + 1 < f := by
            rw [stringifyMembers_eq_cons_cons] at hlen
            simp only [List.length_append, List.length_cons] at hlen
            omega
          have hv := hval v (',' :: (stringifyMembers (kv2 :: kvs3) ++ '}' :: rest)) hlen1
            (noDigitHead_cons (by decide) _)
          have hrec := (ih f (by omega)).2.2 (kv2 :: kvs3) rest (by simp) hlen2
          rw [stringifyMembers_eq_cons_cons, parseMembers.eq_def]
          simp only [List.cons_append, List.append_assoc, List.nil_append,
            List.singleton_append]
          rw [skipWs_cons (by decide)]
          simp only [parseStrChars_escape]
          simp [skipWs, wsChar]
          rw [hv]
          simp [skipWs, wsChar, hrec]

/-- Round-trip at the `JSON.parse`/`JSON.stringify` level: parsing the
serialized form of a value gives back exactly that value. -/
theorem jsonParse_stringify (v : JSValue) : jsonParse (jsonStringify v) = .ok v := by
  have h := (parse_stringify ((stringifyL v).length + 1)).1 v []
    (by omega) (by intro c hc; simp at hc)
  rw [List.append_nil] at h
  rw [jsonParse, jsonStringify]
  show (match parseVal ((stringifyL v).length + 1) (stringifyL v) with
    | .error e => .error e
    | .ok (v2, r) =>
        if skipWs r = [] then .ok v2
        else .error "Unexpected non-whitespace after JSON") = Except.ok v
  rw [h]
  simp [skipWs]

/-! ## `Date.prototype.toISOString`

Modelled with the standard civil-from-days algorithm over a proleptic
Gregorian calendar (the engine's ±8.64e15 ms `Date` range limit is not
modelled; within it the two agree). -/

/-- Left-pad a decimal numeral with zeros to the given width. -/
def padNum (width n : Nat) : List Char :=
  List.replicate (width - (natDigits n).length) '0' ++ natDigits n

/-- The ISO-8601 rendering of a millisecond Unix timestamp, as
`new Date(ms).toISOString()` produces. -/
def isoOfMs (ms : Int) : String :=
  let tms := (ms.emod 86400000).toNat
  let days := ms.ediv 86400000
  let z := days + 719468
  let era := z.ediv 146097
  let doe := (z - era * 146097).toNat
  let yoe := (doe - doe / 1460 + doe / 36524 - doe / 146096) / 365
  let y0 := (yoe : Int) + era * 400
  let doy := doe - (365 * yoe + yoe / 4 - yoe / 100)
  let mp := (5 * doy + 2) / 153
  let d := doy - (153 * mp + 2) / 5 + 1
  let m := if mp < 10 then mp + 3 else mp - 9
  let y := if m ≤ 2 then y0 + 1 else y0
  let yearStr : List Char :=
    if 0 ≤ y ∧ y ≤ 9999 then padNum 4 y.toNat
    else if y < 0 then '-' :: padNum 6 (-y).toNat
    else '+' :: padNum 6 y.toNat
  String.mk (yearStr ++ '-' :: padNum 2 m ++ '-' :: padNum 2 d
    ++ 'T' :: padNum 2 (tms / 3600000) ++ ':' :: padNum 2 (tms % 3600000 / 60000)
    ++ ':' :: padNum 2 (tms % 60000 / 1000) ++ '.' :: padNum 3 (tms % 1000) ++ ['Z'])

/-! ## The request router

`src/index.js` exports a single `fetch(request, env, ctx)`.  The
embedding takes the request's method and pathname, the result of
`await request.json()` (an oracle: the harness's JSON body parse), and
an `Env` describing the two store bindings and the nondeterministic
collaborators.  It returns the HTTP response together with the order
table's contents after the request (the only mutable state). -/

/-- A row of the D1 `orders` table (`schema.sql`): `id TEXT PRIMARY
KEY, name/phone/address TEXT, items TEXT, created_at INTEGER`.  The
three client-supplied text fields keep their JS value, as D1 stores
whatever was bound. -/
structure OrderRow where
  id : String
  name : JSValue
  phone : JSValue
  address : JSValue
  items : String
  created_at : Int
  deriving Repr, DecidableEq

/-- The worker's environment and the oracles for its nondeterministic
collaborators: `kvFail`/`dbFail` model a store client throwing with the
given message, `nowMs`/`nowMs2` the two `Date.now()` calls of the
checkout handler, `randS` the value of `Math.random().toString(36)`,
and `nowHealthMs` the clock read of the health endpoint. -/
structure Env where
  kvPresent : Bool
  kvKeys : List String
  kvGet : String → Option JSValue
  kvFail : Option String
  dbPresent : Bool
  rows : List OrderRow
  dbFail : Option String
  nowMs : Nat
  nowMs2 : Nat
  randS : String
  nowHealthMs : Nat

structure HttpResponse where
  status : Nat
  headers : List (String × String)
  body : Option JSValue
  deriving Repr, DecidableEq

/-- The header set attached to every JSON response in the source. -/
def jsonHeaders : List (String × String) :=
  [("Content-Type", "application/json"), ("Access-Control-Allow-Origin", "*")]

def jsonResp (status : Nat) (body : JSValue) : HttpResponse :=
  ⟨status, jsonHeaders, some body⟩

def errResp (status : Nat) (msg : String) : HttpResponse :=
  jsonResp status (.obj [("error", .str msg)])

/-- JS `String.prototype.includes`. -/
def listIncludes (pat : List Char) : List Char → Bool
  | [] => pat.isEmpty
  | c :: t => pat.isPrefixOf (c :: t) || listIncludes pat t

def strIncludes (s pat : String) : Bool := listIncludes pat.data s.data

/-- `url.pathname.split('/').pop()`: everything after the last slash. -/
def pathPop (p : String) : String :=
  String.mk ((p.data.reverse.takeWhile (fun c => c ≠ '/')).reverse)

/-- JS `String.prototype.startsWith`. -/
def jsStartsWith (p pre : String) : Bool := pre.data.isPrefixOf p.data

/-- JS `String.prototype.substr start len`. -/
def jsSubstr (s : String) (start len : Nat) : String :=
  String.mk ((s.data.drop start).take len)

/-- `SELECT ... ORDER BY created_at DESC` (insertion sort). -/
def insertRowDesc (r : OrderRow) : List OrderRow → List OrderRow
  | [] => [r]
  | x :: xs => if x.created_at < r.created_at then r :: x :: xs else x :: insertRowDesc r xs

def sortRowsDesc (l : List OrderRow) : List OrderRow := l.foldr insertRowDesc []

/-- `SELECT * FROM orders WHERE id = ?` followed by `.first()`. -/
def findRow (rows : List OrderRow) (oid : String) : Option OrderRow :=
  rows.find? (fun r => decide (r.id = oid))

/-- GET `/products` (lines 19-77): KV-binding check, list keys, empty
short-circuit, parallel fetch, filter out nulls; any thrown error is
answered 500 with its message. -/
def handleProducts (env : Env) : HttpResponse :=
  if ¬env.kvPresent then errResp 500 "Products KV binding not configured"
  else
    match env.kvFail with
    | some e => errResp 500 e
    | none =>
      if env.kvKeys.length = 0 then jsonResp 200 (.arr [])
      else jsonResp 200 (.arr (env.kvKeys.filterMap env.kvGet))

/-- GET `/product/:id` (lines 80-129).  Note the `if (product)` test is
JS truthiness: a stored falsy document is answered 404 as well. -/
def handleProduct (pid : String) (env : Env) : HttpResponse :=
  if ¬env.kvPresent then errResp 500 "Products KV binding not configured"
  else
    match env.kvFail with
    | some e => errResp 500 e
    | none =>
      match env.kvGet pid with
      | some p => if truthy p then jsonResp 200 p else errResp 404 "Product not found"
      | none => errResp 404 "Product not found"

/-- V8's TypeError message when `const {name, ...} = body` destructures
a `null` body (the first requested property is named). -/
def destructureNullMsg : String :=
  "Cannot destructure property 'name' of 'body' as it is null."

/-- `q < 1` on a possibly-`undefined` quantity (only reached when the
quantity is truthy, hence defined). -/
def ltOneO : Option JSValue → Bool
  | none => false
  | some q => jsLtOne q

/-- The `for (const item of items)` validation loop (lines 169-181):
stops at the first item failing `!item.id || !item.quantity ||
item.quantity < 1`; touching `item.id` on a `null` item throws a
TypeError, which the handler's catch turns into a 500. -/
def findInvalidItem : List JSValue → Except String (Option JSValue)
  | [] => .ok none
  | it :: rest =>
    if it = .null then .error "Cannot read properties of null (reading 'id')"
    else if ¬truthyO (jsGet it "id") then .ok (some it)
    else if ¬truthyO (jsGet it "quantity") then .ok (some it)
    else if ltOneO (jsGet it "quantity") then .ok (some it)
    else findInvalidItem rest

/-- The generated order id:
`ord_${Date.now()}_${Math.random().toString(36).substr(2, 9)}`. -/
def genOrderId (env : Env) : String :=
  "ord_" ++ natStr env.nowMs ++ "_" ++ jsSubstr env.randS 2 9

/-- `undefined` is unreachable in the places this default is used (the
fields were checked truthy first). -/
def getJS (o : Option JSValue) : JSValue := o.getD .null

/-- Extract the element list of a value guarded by `Array.isArray`. -/
def asArr : Option JSValue → List JSValue
  | some (.arr l) => l
  | _ => []

/-- The row the checkout handler binds into
`INSERT INTO orders (id, name, phone, address, items, created_at)`. -/
def checkoutRow (env : Env) (name phone address : JSValue) (items : List JSValue) : OrderRow :=
  { id := genOrderId env, name := name, phone := phone, address := address,
    items := jsonStringify (.arr items), created_at := (env.nowMs2 / 1000 : Nat) }

/-- The 201 response body of a successful checkout (lines 224-241);
`totalItems` is the JS `reduce` with `+` coercion. -/
def checkoutOkBody (env : Env) (name : JSValue) (items : List JSValue) : JSValue :=
  .obj [("success", .bool true),
        ("orderId", .str (genOrderId env)),
        ("message", .str "Order placed successfully"),
        ("timestamp", .num ((env.nowMs2 / 1000 : Nat) : Int)),
        ("created_at", .str (isoOfMs (((env.nowMs2 / 1000 : Nat) : Int) * 1000))),
        ("summary", .obj
          [("customer", name),
           ("itemCount", .num (items.length : Int)),
           ("totalItems", items.foldl (fun sum it => jsAdd sum (getJS (jsGet it "quantity")))
              (.num 0))])]

/-- The checkout handler's catch block (lines 243-269): a message
mentioning `no such table` gets the schema guidance, anything else is
passed through as a 500. -/
def checkoutCatch (e : String) : HttpResponse :=
  if strIncludes e "no such table" then
    jsonResp 500 (.obj
      [("error", .str "Orders table not found. Please run the schema.sql file first."),
       ("details", .str e)])
  else errResp 500 e

/-- POST `/checkout` (lines 132-270).  The whole body sits in one
`try`, so a failing `request.json()` and a `null` body land in the
catch (500), not in the 400 validation path.  The per-item KV existence
check (lines 183-193) only logs and is not modelled. -/
def handleCheckout (bodyParse : Except String JSValue) (env : Env) :
    HttpResponse × List OrderRow :=
  match bodyParse with
  | .error e => (checkoutCatch e, env.rows)
  | .ok body =>
    if body = .null then (checkoutCatch destructureNullMsg, env.rows)
    else
      let name := jsGet body "name"
      let phone := jsGet body "phone"
      let address := jsGet body "address"
      let items? := jsGet body "items"
      if ¬truthyO name ∨ ¬truthyO phone ∨ ¬truthyO address ∨ ¬truthyO items? ∨ ¬isArrO items?
      then
        (errResp 400 "Missing required fields: name, phone, address, items (array)", env.rows)
      else
        let items := asArr items?
        if items.length = 0 then (errResp 400 "Cart is empty", env.rows)
        else
          match findInvalidItem items with
          | .error e => (checkoutCatch e, env.rows)
          | .ok (some it) =>
              (jsonResp 400 (.obj
                [("error", .str "Each item must have id and valid quantity (â‰¥1)"),
                 ("invalidItem", it)]), env.rows)
          | .ok none =>
            if ¬env.dbPresent then
              (errResp 500 "Database binding not configured", env.rows)
            else
              match env.dbFail with
              | some e => (checkoutCatch e, env.rows)
              | none =>
                -- `id TEXT PRIMARY KEY` (schema.sql): a duplicate-id
                -- insert makes the store client throw
                if env.rows.any (fun x => decide (x.id = genOrderId env)) then
                  (checkoutCatch "D1_ERROR: UNIQUE constraint failed: orders.id", env.rows)
                else
                  (jsonResp 201 (checkoutOkBody env (getJS name) items),
                   env.rows ++ [checkoutRow env (getJS name) (getJS phone) (getJS address) items])

/-- The partial row of the `/orders` list query
(`SELECT id, name, phone, address, created_at ...`), as a JS object. -/
def partialRowObj (o : OrderRow) : JSValue :=
  .obj [("id", .str o.id), ("name", o.name), ("phone", o.phone), ("address", o.address),
        ("created_at", .num o.created_at)]

/-- The per-order mapping of GET `/orders` (lines 297-322): re-fetch
the full row, and only when it is found with truthy `items` parse and
merge; a parse failure becomes `items: []` plus `parseError`; otherwise
the partial row is returned untouched (raw `created_at`, no `items`). -/
def ordersElem (rows : List OrderRow) (o : OrderRow) : JSValue :=
  match findRow rows o.id with
  | none => partialRowObj o
  | some fo =>
    if fo.items ≠ "" then
      match jsonParse fo.items with
      | .ok v =>
          .obj [("id", .str o.id), ("name", o.name), ("phone", o.phone),
                ("address", o.address),
                ("created_at", .str (isoOfMs (o.created_at * 1000))), ("items", v)]
      | .error e =>
          .obj [("id", .str o.id), ("name", o.name), ("phone", o.phone),
                ("address", o.address),
                ("created_at", .str (isoOfMs (o.created_at * 1000))),
                ("items", .arr []), ("parseError", .str e)]
    else partialRowObj o

/-- GET `/orders` (lines 273-355). -/
def handleOrders (env : Env) : HttpResponse :=
  if ¬env.dbPresent then errResp 500 "Database binding not configured"
  else
    match env.dbFail with
    | some e =>
      if strIncludes e "no such table" then
        jsonResp 404 (.obj
          [("error", .str "Orders table not found. No orders have been placed yet."),
           ("details", .str e)])
      else errResp 500 e
    | none =>
      jsonResp 200 (.arr ((sortRowsDesc env.rows).map (ordersElem env.rows)))

/-- GET `/order/:id` (lines 358-413): the full row with `items` parsed
in place and `created_at` converted; a parse failure reaches the
handler's catch and is answered 500 with the raw message (no
`parseError` substitution here). -/
def handleOrder (oid : String) (env : Env) : HttpResponse :=
  if ¬env.dbPresent then errResp 500 "Database binding not configured"
  else
    match env.dbFail with
    | some e => errResp 500 e
    | none =>
      match findRow env.rows oid with
      | none => errResp 404 "Order not found"
      | some o =>
        match jsonParse o.items with
        | .error e => errResp 500 e
        | .ok v =>
            jsonResp 200 (.obj
              [("id", .str o.id), ("name", o.name), ("phone", o.phone),
               ("address", o.address), ("items", v),
               ("created_at", .str (isoOfMs (o.created_at * 1000)))])

/-- GET `/health` (lines 416-432). -/
def handleHealth (env : Env) : HttpResponse :=
  jsonResp 200 (.obj
    [("status", .str "ok"), ("timestamp", .str (isoOfMs (env.nowHealthMs : Int))),
     ("services", .obj [("kv", .bool env.kvPresent), ("d1", .bool env.dbPresent)])])

/-- The CORS preflight response (lines 8-16): note it carries no
`Content-Type` header and an empty body. -/
def optionsResp : HttpResponse :=
  ⟨200, [("Access-Control-Allow-Origin", "*"),
         ("Access-Control-Allow-Methods", "GET, POST, OPTIONS, DELETE"),
         ("Access-Control-Allow-Headers", "Content-Type")], none⟩

/-- The fall-through descriptor response (lines 435-451). -/
def defaultResp : HttpResponse :=
  jsonResp 200 (.obj
    [("message", .str "E-commerce API"),
     ("endpoints", .arr
       [.str "GET  /products - List all products",
        .str "GET  /product/:id - Get single product",
        .str "POST /checkout - Place an order",
        .str "GET  /orders - List all orders (admin)",
        .str "GET  /order/:id - Get specific order",
        .str "GET  /health - Health check"]),
     ("note", .str "Products are stored in KV, orders are stored in D1")])

/-- The exported `fetch` handler: dispatch on method and pathname in
source order, returning the response and the orders table afterwards. -/
def route (method path : String) (bodyParse : Except String JSValue) (env : Env) :
    HttpResponse × List OrderRow :=
  if method = "OPTIONS" then (optionsResp, env.rows)
  else if method = "GET" ∧ path = "/products" then (handleProducts env, env.rows)
  else if method = "GET" ∧ jsStartsWith path "/product/" then
    (handleProduct (pathPop path) env, env.rows)
  else if method = "POST" ∧ path = "/checkout" then handleCheckout bodyParse env
  else if method = "GET" ∧ path = "/orders" then (handleOrders env, env.rows)
  else if method = "GET" ∧ jsStartsWith path "/order/" then
    (handleOrder (pathPop path) env, env.rows)
  else if method = "GET" ∧ path = "/health" then (handleHealth env, env.rows)
  else (defaultResp, env.rows)

/-! ## Router dispatch lemmas -/

theorem strData_append (s t : String) : (s ++ t).data = s.data ++ t.data := by
  cases s
  cases t
  rfl

theorem route_post_checkout (bp : Except String JSValue) (env : Env) :
    route "POST" "/checkout" bp env = handleCheckout bp env := rfl

theorem route_get_orders (bp : Except String JSValue) (env : Env) :
    route "GET" "/orders" bp env = (handleOrders env, env.rows) := rfl

theorem route_options (path : String) (bp : Except String JSValue) (env : Env) :
    route "OPTIONS" path bp env = (optionsResp, env.rows) := by
  rw [route, if_pos rfl]

theorem order_path_data (oid : String) :
    ("/order/" ++ oid).data = '/' :: 'o' :: 'r' :: 'd' :: 'e' :: 'r' :: '/' :: oid.data := by
  cases oid
  rfl

theorem route_get_order (oid : String) (bp : Except String JSValue) (env : Env) :
    route "GET" ("/order/" ++ oid) bp env
      = (handleOrder (pathPop ("/order/" ++ oid)) env, env.rows) := by
  rw [route]
  rw [if_neg (by decide)]
  rw [if_neg (by
    rintro ⟨-, hp⟩
    have := congrArg String.data hp
    rw [order_path_data] at this
    simp at this)]
  rw [if_neg (by
    rintro ⟨-, hp⟩
    rw [jsStartsWith, order_path_data] at hp
    simp [List.isPrefixOf] at hp)]
  rw [if_neg (by rintro ⟨hm, -⟩; exact absurd hm (by decide))]
  rw [if_neg (by
    rintro ⟨-, hp⟩
    have := congrArg String.data hp
    rw [order_path_data] at this
    simp at this)]
  rw [if_pos ⟨rfl, by rw [jsStartsWith, order_path_data]; simp [List.isPrefixOf]⟩]

theorem pathPop_order (oid : String) (h : ∀ c ∈ oid.data, c ≠ '/') :
    pathPop ("/order/" ++ oid) = oid := by
  rw [pathPop, order_path_data]
  have hrev : ('/' :: 'o' :: 'r' :: 'd' :: 'e' :: 'r' :: '/' :: oid.data).reverse
      = oid.data.reverse ++ ['/', 'r', 'e', 'd', 'r', 'o', '/'] := by
    simp
  rw [hrev]
  have := takeWhile_append_all (p := fun c => decide (c ≠ '/')) oid.data.reverse
    ['/', 'r', 'e', 'd', 'r', 'o', '/']
    (by
      intro c hc
      simp only [decide_eq_true_eq]
      exact h c (List.mem_reverse.mp hc))
    (by intro c hc; simp at hc; subst hc; simp)
  rw [this.1]
  cases oid
  simp [String.mk]

/-! ## Response-shape lemmas -/

theorem checkoutCatch_headers (e : String) : (checkoutCatch e).headers = jsonHeaders := by
  rw [checkoutCatch]
  split <;> rfl

theorem checkoutCatch_status (e : String) : (checkoutCatch e).status = 500 := by
  rw [checkoutCatch]
  split <;> rfl

theorem handleProducts_headers (env : Env) : (handleProducts env).headers = jsonHeaders := by
  rw [handleProducts]
  repeat' (first | rfl | split)

theorem handleProduct_headers (pid : String) (env : Env) :
    (handleProduct pid env).headers = jsonHeaders := by
  rw [handleProduct]
  repeat' (first | rfl | split)

theorem handleCheckout_headers (bp : Except String JSValue) (env : Env) :
    (handleCheckout bp env).1.headers = jsonHeaders := by
  rw [handleCheckout.eq_def]
  repeat' (first | rfl | exact checkoutCatch_headers _ | split | simp only [])

theorem handleOrders_headers (env : Env) : (handleOrders env).headers = jsonHeaders := by
  rw [handleOrders]
  repeat' (first | rfl | split)

theorem handleOrder_headers (oid : String) (env : Env) :
    (handleOrder oid env).headers = jsonHeaders := by
  rw [handleOrder]
  repeat' (first | rfl | split)

theorem handleHealth_headers (env : Env) : (handleHealth env).headers = jsonHeaders := rfl

/-! ## Concrete data for witnesses and counterexamples -/

/-- A concrete well-configured environment. -/
def baseEnv : Env :=
  { kvPresent := true, kvKeys := [], kvGet := fun _ => none, kvFail := none,
    dbPresent := true, rows := [], dbFail := none,
    nowMs := 1700000000000, nowMs2 := 1700000000123, randS := "0.k3j9q2v1zpa",
    nowHealthMs := 1700000000000 }

/-- A fully valid checkout body. -/
def validBody : JSValue :=
  .obj [("name", .str "Ann"), ("phone", .str "123"), ("address", .str "A St"),
        ("items", .arr [.obj [("id", .str "x"), ("quantity", .num 2)]])]

/-! ## C4 — response headers -/

/-- C4 (amended): every response carries
`Access-Control-Allow-Origin: *`; every non-OPTIONS response also
carries `Content-Type: application/json`; the OPTIONS preflight
response carries exactly the three CORS headers and no Content-Type. -/
theorem claim_C4 (method path : String) (bp : Except String JSValue) (env : Env) :
    (("Access-Control-Allow-Origin", "*") ∈ (route method path bp env).1.headers)
    ∧ (method ≠ "OPTIONS" →
        ("Content-Type", "application/json") ∈ (route method path bp env).1.headers)
    ∧ (method = "OPTIONS" → (route method path bp env).1.headers
        = [("Access-Control-Allow-Origin", "*"),
           ("Access-Control-Allow-Methods", "GET, POST, OPTIONS, DELETE"),
           ("Access-Control-Allow-Headers", "Content-Type")]) := by
  rw [route]
  split_ifs with h1 h2 h3 h4 h5 h6 h7
  · exact ⟨show ("Access-Control-Allow-Origin", "*") ∈ optionsResp.headers by decide,
      fun hm => absurd h1 hm, fun _ => rfl⟩
  · exact ⟨by rw [handleProducts_headers]; decide,
      fun _ => by rw [handleProducts_headers]; decide, fun hm => absurd hm h1⟩
  · exact ⟨by rw [handleProduct_headers]; decide,
      fun _ => by rw [handleProduct_headers]; decide, fun hm => absurd hm h1⟩
  · exact ⟨by rw [handleCheckout_headers]; decide,
      fun _ => by rw [handleCheckout_headers]; decide, fun hm => absurd hm h1⟩
  · exact ⟨by rw [handleOrders_headers]; decide,
      fun _ => by rw [handleOrders_headers]; decide, fun hm => absurd hm h1⟩
  · exact ⟨by rw [handleOrder_headers]; decide,
      fun _ => by rw [handleOrder_headers]; decide, fun hm => absurd hm h1⟩
  · exact ⟨by rw [handleHealth_headers]; decide,
      fun _ => by rw [handleHealth_headers]; decide, fun hm => absurd hm h1⟩
  · exact ⟨show ("Access-Control-Allow-Origin", "*") ∈ defaultResp.headers by decide,
      fun _ => show ("Content-Type", "application/json") ∈ defaultResp.headers by decide,
      fun hm => absurd hm h1⟩

/-- C4 as frozen is false: the OPTIONS preflight response does not
carry a `Content-Type: application/json` header. -/
theorem claim_C4_counterexample :
    ("Content-Type", "application/json")
      ∉ (route "OPTIONS" "/checkout" (.error "preflight") baseEnv).1.headers := by
  decide

/-- Witness: C4's guarantees instantiated at a GET and at an OPTIONS
request. -/
theorem claim_C4_witness :
    ("Content-Type", "application/json")
        ∈ (route "GET" "/health" (.error "none") baseEnv).1.headers
    ∧ (route "OPTIONS" "/" (.error "none") baseEnv).1.headers
        = [("Access-Control-Allow-Origin", "*"),
           ("Access-Control-Allow-Methods", "GET, POST, OPTIONS, DELETE"),
           ("Access-Control-Allow-Headers", "Content-Type")] :=
  ⟨(claim_C4 "GET" "/health" (.error "none") baseEnv).2.1 (by decide),
   (claim_C4 "OPTIONS" "/" (.error "none") baseEnv).2.2 rfl⟩

/-! ## C8 — order rows are never updated or deleted -/

theorem handleCheckout_snd (bp : Except String JSValue) (env : Env) :
    (handleCheckout bp env).2 = env.rows
      ∨ ∃ r, (handleCheckout bp env).2 = env.rows ++ [r] := by
  rw [handleCheckout.eq_def]
  repeat' (first | exact Or.inl rfl | exact Or.inr ⟨_, rfl⟩ | split | simp only [])

/-- C8: no request ever removes or rewrites an order row; the only
mutation any route performs on the order store is the single row
appended by a successful POST `/checkout`. -/
theorem claim_C8 (method path : String) (bp : Except String JSValue) (env : Env) :
    (route method path bp env).2 = env.rows
      ∨ (method = "POST" ∧ path = "/checkout"
          ∧ ∃ r, (route method path bp env).2 = env.rows ++ [r]) := by
  rw [route]
  split_ifs with h1 h2 h3 h4 h5 h6 h7
  · exact Or.inl rfl
  · exact Or.inl rfl
  · exact Or.inl rfl
  · rcases handleCheckout_snd bp env with h | ⟨r, hr⟩
    · exact Or.inl h
    · exact Or.inr ⟨h4.1, h4.2, r, hr⟩
  · exact Or.inl rfl
  · exact Or.inl rfl
  · exact Or.inl rfl
  · exact Or.inl rfl

/-! ## C9 — checkout is atomic -/

theorem jsonResp_status (s : Nat) (b : JSValue) : (jsonResp s b).status = s := rfl

theorem errResp_status (s : Nat) (m : String) : (errResp s m).status = s := rfl

theorem c9_branch {resp : HttpResponse} {env : Env} (h : resp.status ≠ 201) :
    ((resp, env.rows).1.status ≠ 201 → (resp, env.rows).2 = env.rows)
    ∧ ((resp, env.rows).1.status = 201 ↔ ∃ r, (resp, env.rows).2 = env.rows ++ [r]) := by
  refine ⟨fun _ => rfl, ⟨fun hs => absurd hs h, ?_⟩⟩
  rintro ⟨r, hr⟩
  exact absurd hr (by simp)

/-- C9: POST `/checkout` either changes nothing (any non-201 outcome)
or appends exactly one order row (exactly the 201 outcome). -/
theorem claim_C9 (bp : Except String JSValue) (env : Env) :
    ((route "POST" "/checkout" bp env).1.status ≠ 201 →
        (route "POST" "/checkout" bp env).2 = env.rows)
    ∧ ((route "POST" "/checkout" bp env).1.status = 201 ↔
        ∃ r, (route "POST" "/checkout" bp env).2 = env.rows ++ [r]) := by
  rw [route_post_checkout, handleCheckout.eq_def]
  repeat' (first
    | exact c9_branch (by rw [checkoutCatch_status]; decide)
    | exact c9_branch (by rw [jsonResp_status]; decide)
    | exact c9_branch (by rw [errResp_status]; decide)
    | exact ⟨fun h => absurd rfl h, ⟨fun _ => ⟨_, rfl⟩, fun _ => rfl⟩⟩
    | split
    | simp only [])

/-- Witness for C9 at concrete inputs: a malformed body changes
nothing, and a valid checkout's 201 comes with exactly one appended
row. -/
theorem claim_C9_witness :
    (route "POST" "/checkout" (.error "Unexpected token") baseEnv).2 = baseEnv.rows
    ∧ ∃ r, (route "POST" "/checkout" (.ok validBody) baseEnv).2 = baseEnv.rows ++ [r] :=
  ⟨(claim_C9 (.error "Unexpected token") baseEnv).1 (by decide),
   (claim_C9 (.ok validBody) baseEnv).2.mp (by decide)⟩

/-! ## C1 — the missing-fields 400 -/

theorem status_ne {r1 r2 : HttpResponse} (h : r1.status ≠ r2.status) : r1 ≠ r2 :=
  fun he => h (congrArg HttpResponse.status he)

theorem c1_neq {resp : HttpResponse} (rows : List OrderRow)
    (h : resp ≠ errResp 400 "Missing required fields: name, phone, address, items (array)") :
    (resp, rows).1 = errResp 400 "Missing required fields: name, phone, address, items (array)"
      → False :=
  fun he => h he

/-- C1 (amended): POST `/checkout` answers the missing-fields 400 with
exactly that body when and only when the request body parses as JSON
to a non-null value in which `name`, `phone`, `address` or `items` is
falsy, or `items` is not an array (truthiness, not string-ness, is
checked).  A body that fails to parse as JSON is instead answered 500
with the parse message, and a JSON `null` body is answered 500 with
the destructuring TypeError message. -/
theorem claim_C1 (bp : Except String JSValue) (env : Env) :
    ((route "POST" "/checkout" bp env).1
        = errResp 400 "Missing required fields: name, phone, address, items (array)"
      ↔ ∃ v, bp = .ok v ∧ v ≠ .null ∧
          (¬truthyO (jsGet v "name") = true ∨ ¬truthyO (jsGet v "phone") = true
            ∨ ¬truthyO (jsGet v "address") = true ∨ ¬truthyO (jsGet v "items") = true
            ∨ ¬isArrO (jsGet v "items") = true))
    ∧ (∀ e, bp = .error e → strIncludes e "no such table" = false →
        (route "POST" "/checkout" bp env).1 = errResp 500 e)
    ∧ (bp = .ok .null →
        (route "POST" "/checkout" bp env).1 = errResp 500 destructureNullMsg) := by
  rw [route_post_checkout]
  cases bp with
  | error e =>
    refine ⟨⟨fun he => ?_, ?_⟩, fun e2 he2 hinc => ?_, fun hn => Except.noConfusion hn⟩
    · refine absurd he ?_
      rw [handleCheckout]
      exact fun h2 =>
        c1_neq _ (status_ne (by rw [checkoutCatch_status, errResp_status]; decide)) h2
    · rintro ⟨v, hv, -, -⟩
      exact Except.noConfusion hv
    · injection he2 with h12
      subst h12
      rw [handleCheckout]
      show checkoutCatch e = _
      rw [checkoutCatch, if_neg (by rw [hinc]; exact fun h => Bool.noConfusion h)]
  | ok body =>
    by_cases hnull : body = JSValue.null
    · subst hnull
      refine ⟨⟨fun he => ?_, ?_⟩, fun e2 he2 hinc => Except.noConfusion he2, fun _ => ?_⟩
      · refine absurd he ?_
        rw [handleCheckout]
        exact fun h2 =>
          c1_neq _ (status_ne (by rw [checkoutCatch_status, errResp_status]; decide)) h2
      · rintro ⟨v, hv, hvn, -⟩
        injection hv with h12
        exact absurd h12.symm hvn
      · rw [handleCheckout]
        show checkoutCatch destructureNullMsg = _
        decide
    · refine ⟨⟨fun he => ?_, ?_⟩, fun e2 he2 _ => Except.noConfusion he2,
        fun hn => by injection hn with h12; exact absurd h12 hnull⟩
      · rw [handleCheckout, if_neg hnull] at he
        simp only [] at he
        by_cases hC : (¬truthyO (jsGet body "name") = true ∨ ¬truthyO (jsGet body "phone") = true
            ∨ ¬truthyO (jsGet body "address") = true ∨ ¬truthyO (jsGet body "items") = true
            ∨ ¬isArrO (jsGet body "items") = true)
        · exact ⟨body, rfl, hnull, hC⟩
        · exfalso
          rw [if_neg hC] at he
          revert he
          split
          · exact c1_neq _ (by decide)
          · split
            · exact c1_neq _
                (status_ne (by rw [checkoutCatch_status, errResp_status]; decide))
            · exact c1_neq _ (fun he2 => by
                have := congrArg HttpResponse.body he2
                simp [jsonResp, errResp] at this)
            · split
              · exact c1_neq _ (status_ne (by rw [errResp_status, errResp_status]; decide))
              · split
                · exact c1_neq _
                    (status_ne (by rw [checkoutCatch_status, errResp_status]; decide))
                · split
                  · exact c1_neq _
                      (status_ne (by rw [checkoutCatch_status, errResp_status]; decide))
                  · exact c1_neq _
                      (status_ne (by rw [jsonResp_status, errResp_status]; decide))
      · rintro ⟨v, hv, -, hcond⟩
        injection hv with h12
        subst h12
        rw [handleCheckout, if_neg hnull]
        simp only []
        rw [if_pos hcond]

/-- C1 as frozen is false twice over: a body that fails to parse as
JSON is answered 500 (the parse error is thrown inside the handler's
`try`, whose catch returns 500), not the claimed 400; and a truthy
non-string `name` (here the number 1) passes the `!name` check, so the
request succeeds with 201 although `name` is not a truthy string. -/
theorem claim_C1_counterexample :
    (route "POST" "/checkout" (.error "Unexpected token i in JSON at position 0")
        baseEnv).1.status = 500
    ∧ (route "POST" "/checkout"
        (.ok (.obj [("name", .num 1), ("phone", .str "p"), ("address", .str "a"),
          ("items", .arr [.obj [("id", .str "x"), ("quantity", .num 1)]])]))
        baseEnv).1.status = 201 :=
  ⟨by decide, by decide⟩

/-- Witness: the amended C1 at a concrete body with a missing phone. -/
theorem claim_C1_witness :
    (route "POST" "/checkout" (.ok (.obj [("name", .str "n")])) baseEnv).1
      = errResp 400 "Missing required fields: name, phone, address, items (array)" :=
  (claim_C1 (.ok (.obj [("name", .str "n")])) baseEnv).1.mpr
    ⟨.obj [("name", .str "n")], rfl, by decide, by decide⟩

/-! ## C2 — first invalid item -/

theorem findInvalidItem_spec (pre : List JSValue) (it : JSValue) (post : List JSValue)
    (hpre : ∀ x ∈ pre, x ≠ .null ∧ truthyO (jsGet x "id") = true
      ∧ truthyO (jsGet x "quantity") = true ∧ ltOneO (jsGet x "quantity") = false)
    (hnn : it ≠ .null)
    (hbad : ¬truthyO (jsGet it "id") = true ∨ ¬truthyO (jsGet it "quantity") = true
      ∨ ltOneO (jsGet it "quantity") = true) :
    findInvalidItem (pre ++ it :: post) = .ok (some it) := by
  induction pre with
  | nil =>
    rw [List.nil_append, findInvalidItem, if_neg hnn]
    by_cases h1 : truthyO (jsGet it "id") = true
    · rw [if_neg (not_not_intro h1)]
      by_cases h2 : truthyO (jsGet it "quantity") = true
      · rw [if_neg (not_not_intro h2)]
        have h3 : ltOneO (jsGet it "quantity") = true := by
          rcases hbad with h | h | h
          · exact absurd h1 h
          · exact absurd h2 h
          · exact h
        rw [if_pos h3]
      · rw [if_pos h2]
    · rw [if_pos h1]
  | cons x pre ih =>
    obtain ⟨hx0, hx1, hx2, hx3⟩ := hpre x (by simp)
    rw [List.cons_append, findInvalidItem, if_neg hx0, if_neg (not_not_intro hx1),
      if_neg (not_not_intro hx2), if_neg (by simp [hx3])]
    exact ih (fun y hy => hpre y (by simp [hy]))

/-- C2 (amended): with truthy `name`/`phone`/`address` and a non-empty
items array, if the items before position k are non-null and pass the
code's check and the item at position k is non-null and either lacks a
truthy `id`, or has a falsy `quantity`, or has a quantity whose JS
coercion compares `< 1`, the handler responds 400 with the invalid-item
body carrying that item (the first offender), and no order row is
inserted.  (Quantities that are truthy non-numbers, such as `"5"`, pass
the check — see the counterexample.) -/
theorem claim_C2 (body : JSValue) (env : Env) (pre post : List JSValue) (it : JSValue)
    (hnull : body ≠ .null)
    (hname : truthyO (jsGet body "name") = true)
    (hphone : truthyO (jsGet body "phone") = true)
    (haddr : truthyO (jsGet body "address") = true)
    (hitems : jsGet body "items" = some (.arr (pre ++ it :: post)))
    (hpre : ∀ x ∈ pre, x ≠ .null ∧ truthyO (jsGet x "id") = true
      ∧ truthyO (jsGet x "quantity") = true ∧ ltOneO (jsGet x "quantity") = false)
    (hnn : it ≠ .null)
    (hbad : ¬truthyO (jsGet it "id") = true ∨ ¬truthyO (jsGet it "quantity") = true
      ∨ ltOneO (jsGet it "quantity") = true) :
    (route "POST" "/checkout" (.ok body) env).1
      = jsonResp 400 (.obj
          [("error", .str "Each item must have id and valid quantity (â‰¥1)"),
           ("invalidItem", it)])
    ∧ (route "POST" "/checkout" (.ok body) env).2 = env.rows := by
  rw [route_post_checkout, handleCheckout, if_neg hnull]
  simp only []
  have hC : ¬(¬truthyO (jsGet body "name") = true ∨ ¬truthyO (jsGet body "phone") = true
      ∨ ¬truthyO (jsGet body "address") = true ∨ ¬truthyO (jsGet body "items") = true
      ∨ ¬isArrO (jsGet body "items") = true) := by
    rintro (h | h | h | h | h)
    · exact h hname
    · exact h hphone
    · exact h haddr
    · rw [hitems] at h
      exact h rfl
    · rw [hitems] at h
      exact h rfl
  rw [if_neg hC, hitems]
  simp only [asArr]
  rw [if_neg (by simp), findInvalidItem_spec pre it post hpre hnn hbad]
  exact ⟨rfl, rfl⟩

/-- C2 as frozen is false: a quantity that is not a number at all, the
string `"5"`, passes the check (`!"5"` is false and `"5" < 1` coerces
to `5 < 1`, false), so the checkout succeeds with 201 and inserts a
row, where the claim demands a 400 and no insert. -/
theorem claim_C2_counterexample :
    (route "POST" "/checkout"
        (.ok (.obj [("name", .str "n"), ("phone", .str "p"), ("address", .str "a"),
          ("items", .arr [.obj [("id", .str "x"), ("quantity", .str "5")]])]))
        baseEnv).1.status = 201
    ∧ (route "POST" "/checkout"
        (.ok (.obj [("name", .str "n"), ("phone", .str "p"), ("address", .str "a"),
          ("items", .arr [.obj [("id", .str "x"), ("quantity", .str "5")]])]))
        baseEnv).2 ≠ baseEnv.rows :=
  ⟨by decide, by decide⟩

/-- Witness: the amended C2 at a concrete one-item cart whose item has
quantity 0. -/
theorem claim_C2_witness :
    (route "POST" "/checkout"
        (.ok (.obj [("name", .str "n"), ("phone", .str "p"), ("address", .str "a"),
          ("items", .arr [.obj [("id", .str "x"), ("quantity", .num 0)]])]))
        baseEnv).1
      = jsonResp 400 (.obj
          [("error", .str "Each item must have id and valid quantity (â‰¥1)"),
           ("invalidItem", .obj [("id", .str "x"), ("quantity", .num 0)])]) :=
  (claim_C2
    (.obj [("name", .str "n"), ("phone", .str "p"), ("address", .str "a"),
      ("items", .arr [.obj [("id", .str "x"), ("quantity", .num 0)]])])
    baseEnv [] [] (.obj [("id", .str "x"), ("quantity", .num 0)])
    (by decide) (by decide) (by decide) (by decide) (by decide)
    (by simp) (by decide) (by decide)).1

/-! ## C7 — missing-table error mapping -/

theorem handleCheckout_valid (body : JSValue) (env : Env) (items : List JSValue)
    (hnull : body ≠ .null)
    (hname : truthyO (jsGet body "name") = true)
    (hphone : truthyO (jsGet body "phone") = true)
    (haddr : truthyO (jsGet body "address") = true)
    (hitems : jsGet body "items" = some (.arr items))
    (hne : items ≠ [])
    (hvalid : findInvalidItem items = .ok none)
    (hdb : env.dbPresent = true)
    (hfresh : ∀ x ∈ env.rows, x.id ≠ genOrderId env) :
    handleCheckout (.ok body) env =
      match env.dbFail with
      | some e => (checkoutCatch e, env.rows)
      | none =>
          (jsonResp 201 (checkoutOkBody env (getJS (jsGet body "name")) items),
           env.rows ++ [checkoutRow env (getJS (jsGet body "name"))
             (getJS (jsGet body "phone")) (getJS (jsGet body "address")) items]) := by
  rw [handleCheckout, if_neg hnull]
  simp only []
  have hC : ¬(¬truthyO (jsGet body "name") = true ∨ ¬truthyO (jsGet body "phone") = true
      ∨ ¬truthyO (jsGet body "address") = true ∨ ¬truthyO (jsGet body "items") = true
      ∨ ¬isArrO (jsGet body "items") = true) := by
    rintro (h | h | h | h | h)
    · exact h hname
    · exact h hphone
    · exact h haddr
    · rw [hitems] at h
      exact h rfl
    · rw [hitems] at h
      exact h rfl
  rw [if_neg hC, hitems]
  simp only [asArr]
  rw [if_neg (by simp [hne]), hvalid, if_neg (by simp [hdb])]
  have hany : env.rows.any (fun x => decide (x.id = genOrderId env)) = false := by
    rw [List.any_eq_false]
    intro x hx
    simp [hfresh x hx]
  cases env.dbFail with
  | some e => rfl
  | none =>
    rw [hany]
    rfl

/-- C7: when the order store raises an error during a valid checkout,
POST `/checkout` answers 500 — with the schema guidance and a `details`
field when the message contains `no such table`, with `{error:
<message>}` otherwise; and GET `/orders` answers 404 with its own
guidance body in the missing-table case and 500 `{error: <message>}`
otherwise. -/
theorem claim_C7 (env : Env) (e : String) (body : JSValue) (items : List JSValue)
    (bp : Except String JSValue)
    (hnull : body ≠ .null)
    (hname : truthyO (jsGet body "name") = true)
    (hphone : truthyO (jsGet body "phone") = true)
    (haddr : truthyO (jsGet body "address") = true)
    (hitems : jsGet body "items" = some (.arr items))
    (hne : items ≠ [])
    (hvalid : findInvalidItem items = .ok none)
    (hdb : env.dbPresent = true)
    (hfail : env.dbFail = some e)
    (hfresh : ∀ x ∈ env.rows, x.id ≠ genOrderId env) :
    (strIncludes e "no such table" = true →
        (route "POST" "/checkout" (.ok body) env).1
          = jsonResp 500 (.obj
              [("error", .str "Orders table not found. Please run the schema.sql file first."),
               ("details", .str e)])
        ∧ (route "GET" "/orders" bp env).1
          = jsonResp 404 (.obj
              [("error", .str "Orders table not found. No orders have been placed yet."),
               ("details", .str e)]))
    ∧ (strIncludes e "no such table" = false →
        (route "POST" "/checkout" (.ok body) env).1 = errResp 500 e
        ∧ (route "GET" "/orders" bp env).1 = errResp 500 e) := by
  have hco : (route "POST" "/checkout" (.ok body) env).1 = checkoutCatch e := by
    rw [route_post_checkout,
      handleCheckout_valid body env items hnull hname hphone haddr hitems hne hvalid hdb hfresh,
      hfail]
  have hor : (route "GET" "/orders" bp env).1 =
      (if strIncludes e "no such table" = true then
        jsonResp 404 (.obj
          [("error", .str "Orders table not found. No orders have been placed yet."),
           ("details", .str e)])
      else errResp 500 e) := by
    rw [route_get_orders]
    show handleOrders env = _
    rw [handleOrders, if_neg (by simp [hdb]), hfail]
  constructor
  · intro hinc
    refine ⟨?_, ?_⟩
    · rw [hco, checkoutCatch, if_pos hinc]
    · rw [hor, if_pos hinc]
  · intro hinc
    refine ⟨?_, ?_⟩
    · rw [hco, checkoutCatch, if_neg (by simp [hinc])]
    · rw [hor, if_neg (by simp [hinc])]

/-- Witness: C7 at a concrete environment whose D1 client throws the
SQLite missing-table message during a valid checkout / orders listing,
and at one with an unrelated failure. -/
theorem claim_C7_witness :
    ((route "POST" "/checkout" (.ok validBody)
        { baseEnv with dbFail := some "D1_ERROR: no such table: orders" }).1
      = jsonResp 500 (.obj
          [("error", .str "Orders table not found. Please run the schema.sql file first."),
           ("details", .str "D1_ERROR: no such table: orders")]))
    ∧ ((route "GET" "/orders" (.error "ignored")
        { baseEnv with dbFail := some "disk I/O error" }).1
      = errResp 500 "disk I/O error") :=
  ⟨((claim_C7 { baseEnv with dbFail := some "D1_ERROR: no such table: orders" }
      "D1_ERROR: no such table: orders" validBody
      [.obj [("id", .str "x"), ("quantity", .num 2)]] (.error "ignored")
      (by decide) (by decide) (by decide) (by decide) (by decide) (by decide)
      rfl (by decide) (by decide) (by decide)).1 (by decide)).1,
   ((claim_C7 { baseEnv with dbFail := some "disk I/O error" }
      "disk I/O error" validBody
      [.obj [("id", .str "x"), ("quantity", .num 2)]] (.error "ignored")
      (by decide) (by decide) (by decide) (by decide) (by decide) (by decide)
      rfl (by decide) (by decide) (by decide)).2 (by decide)).2⟩

/-! ## C10 — single-order parse failure is a bare 500 -/

/-- C10: when GET `/order/:id` finds the row but its `items` column is
not valid JSON, the response is a bare 500 `{error: <parse message>}` —
no empty-array substitution and no `parseError` field, unlike the
listing endpoint. -/
theorem claim_C10 (env : Env) (oid : String) (row : OrderRow) (e : String)
    (bp : Except String JSValue)
    (hslash : ∀ c ∈ oid.data, c ≠ '/')
    (hdb : env.dbPresent = true)
    (hfail : env.dbFail = none)
    (hfind : findRow env.rows oid = some row)
    (hparse : jsonParse row.items = .error e) :
    (route "GET" ("/order/" ++ oid) bp env).1 = errResp 500 e := by
  rw [route_get_order, pathPop_order oid hslash]
  show handleOrder oid env = _
  rw [handleOrder, if_neg (by simp [hdb])]
  simp only [hfail, hfind, hparse]

/-- A stored row whose `items` column is not valid JSON. -/
def badRow : OrderRow := ⟨"o1", .str "n", .str "p", .str "a", "\x7b", 5⟩

/-- Witness: C10 at a store holding one row with corrupt `items`. -/
theorem claim_C10_witness :
    (route "GET" ("/order/" ++ "o1") (.error "x") { baseEnv with rows := [badRow] }).1
      = errResp 500 "Expected property name in JSON object" :=
  claim_C10 { baseEnv with rows := [badRow] } "o1" badRow
    "Expected property name in JSON object" (.error "x")
    (by decide) (by decide) rfl rfl
    (by
      show jsonParse "\x7b" = _
      simp [jsonParse, parseVal.eq_def, parseMembers.eq_def, skipWs, wsChar])

/-! ## C6 — order-listing element shaping -/

/-- C6 (amended): with the store configured and not failing, GET
`/orders` responds 200 with the per-row mapped array; an element whose
re-fetched row has truthy `items` carries the parsed items (or, on a
parse failure, `items: []` plus `parseError`) and an ISO `created_at`;
but an element whose re-fetched row is missing or has falsy `items` is
the raw partial row — numeric `created_at`, no `items`, no
`parseError`. -/
theorem claim_C6 (env : Env) (bp : Except String JSValue)
    (hdb : env.dbPresent = true) (hfail : env.dbFail = none) :
    ((route "GET" "/orders" bp env).1
      = jsonResp 200 (.arr ((sortRowsDesc env.rows).map (ordersElem env.rows))))
    ∧ (∀ o fo, findRow env.rows o.id = some fo → fo.items ≠ "" →
        (∀ v, jsonParse fo.items = .ok v →
          jsGet (ordersElem env.rows o) "items" = some v
          ∧ jsGet (ordersElem env.rows o) "created_at"
              = some (.str (isoOfMs (o.created_at * 1000)))
          ∧ jsGet (ordersElem env.rows o) "parseError" = none)
        ∧ (∀ e, jsonParse fo.items = .error e →
          jsGet (ordersElem env.rows o) "items" = some (.arr [])
          ∧ jsGet (ordersElem env.rows o) "parseError" = some (.str e)
          ∧ jsGet (ordersElem env.rows o) "created_at"
              = some (.str (isoOfMs (o.created_at * 1000)))))
    ∧ (∀ o, (findRow env.rows o.id = none
          ∨ ∃ fo, findRow env.rows o.id = some fo ∧ fo.items = "") →
        ordersElem env.rows o = partialRowObj o
        ∧ jsGet (ordersElem env.rows o) "items" = none
        ∧ jsGet (ordersElem env.rows o) "created_at" = some (.num o.created_at)) := by
  refine ⟨?_, ?_, ?_⟩
  · rw [route_get_orders]
    show handleOrders env = _
    rw [handleOrders, if_neg (by simp [hdb]), hfail]
  · intro o fo hfo hne
    constructor
    · intro v hv
      rw [ordersElem]
      simp only [hfo]
      rw [if_pos hne]
      simp only [hv]
      refine ⟨?_, ?_, ?_⟩ <;> simp [jsGet]
    · intro e he
      rw [ordersElem]
      simp only [hfo]
      rw [if_pos hne]
      simp only [he]
      refine ⟨?_, ?_, ?_⟩ <;> simp [jsGet]
  · intro o ho
    have helem : ordersElem env.rows o = partialRowObj o := by
      rcases ho with ho | ⟨fo, hfo, hemp⟩
      · rw [ordersElem]
        simp only [ho]
      · rw [ordersElem]
        simp only [hfo]
        rw [if_neg (by simp [hemp])]
    refine ⟨helem, ?_, ?_⟩ <;> rw [helem] <;> simp [partialRowObj, jsGet]

/-- A stored row whose `items` column is the empty string (falsy). -/
def emptyItemsRow : OrderRow := ⟨"o2", .str "n", .str "p", .str "a", "", 5⟩

/-- C6 as frozen is false: for a stored row whose `items` column is
the empty string, the `/orders` element is the raw partial row — its
`created_at` stays numeric and it carries neither `items` nor
`parseError`, while the whole request still answers 200. -/
theorem claim_C6_counterexample :
    (route "GET" "/orders" (.error "x") { baseEnv with rows := [emptyItemsRow] }).1.body
      = some (.arr [partialRowObj emptyItemsRow])
    ∧ jsGet (partialRowObj emptyItemsRow) "items" = none
    ∧ jsGet (partialRowObj emptyItemsRow) "parseError" = none
    ∧ jsGet (partialRowObj emptyItemsRow) "created_at" = some (.num 5) :=
  ⟨by decide, by decide, by decide, by decide⟩

/-- Witness: the amended C6 at a store holding one row with corrupt
`items` (the parse-failure branch). -/
theorem claim_C6_witness :
    ((route "GET" "/orders" (.error "x") { baseEnv with rows := [badRow] }).1
      = jsonResp 200 (.arr ((sortRowsDesc [badRow]).map (ordersElem [badRow]))))
    ∧ jsGet (ordersElem [badRow] badRow) "items" = some (.arr [])
    ∧ jsGet (ordersElem [badRow] badRow) "parseError"
        = some (.str "Expected property name in JSON object") :=
  have hp : jsonParse badRow.items = .error "Expected property name in JSON object" := by
    show jsonParse "\x7b" = _
    simp [jsonParse, parseVal.eq_def, parseMembers.eq_def, skipWs, wsChar]
  ⟨(claim_C6 { baseEnv with rows := [badRow] } (.error "x") (by decide) rfl).1,
   (((claim_C6 { baseEnv with rows := [badRow] } (.error "x") (by decide) rfl).2.1
      badRow badRow rfl (by decide)).2 "Expected property name in JSON object" hp).1,
   (((claim_C6 { baseEnv with rows := [badRow] } (.error "x") (by decide) rfl).2.1
      badRow badRow rfl (by decide)).2 "Expected property name in JSON object" hp).2.1⟩

/-! ## C3 — round-trip fidelity of stored items -/

theorem strMk_data (l : List Char) : (String.mk l).data = l := rfl

/-- The shape `Math.random().toString(36)` always has: `"0"` for zero,
otherwise `0.` followed by a non-empty run of base-36 digits. -/
def randShape (s : String) : Prop :=
  s = "0" ∨ ∃ ds, ds ≠ [] ∧ (∀ c ∈ ds, c.isDigit = true ∨ ('a' ≤ c ∧ c ≤ 'z'))
    ∧ s.data = '0' :: '.' :: ds

theorem genOrderId_data (env : Env) :
    (genOrderId env).data
      = 'o' :: 'r' :: 'd' :: '_'
          :: (natDigits env.nowMs ++ '_' :: ((env.randS.data.drop 2).take 9)) := by
  rw [genOrderId]
  rw [strData_append, strData_append, strData_append]
  simp [natStr, jsSubstr, strMk_data]

theorem suffix_chars {s : String} (h : randShape s) :
    ∀ c ∈ (s.data.drop 2).take 9, c.isDigit = true ∨ ('a' ≤ c ∧ c ≤ 'z') := by
  rcases h with h | ⟨ds, -, hds, hdata⟩
  · subst h
    intro c hc
    simp at hc
  · rw [hdata]
    intro c hc
    exact hds c (List.take_subset _ _ hc)

theorem base36_ne_slash {c : Char} (h : c.isDigit = true ∨ ('a' ≤ c ∧ c ≤ 'z')) :
    c ≠ '/' := by
  rcases h with h | ⟨h1, -⟩
  · exact ne_of_isDigit h (by decide)
  · intro he
    subst he
    exact absurd h1 (by decide)

theorem base36_ne_underscore {c : Char} (h : c.isDigit = true ∨ ('a' ≤ c ∧ c ≤ 'z')) :
    c ≠ '_' := by
  rcases h with h | ⟨h1, -⟩
  · exact ne_of_isDigit h (by decide)
  · intro he
    subst he
    exact absurd h1 (by decide)

theorem genOrderId_no_slash (env : Env) (hrand : randShape env.randS) :
    ∀ c ∈ (genOrderId env).data, c ≠ '/' := by
  rw [genOrderId_data]
  intro c hc
  simp only [List.mem_cons, List.mem_append] at hc
  rcases hc with rfl | rfl | rfl | rfl | hc | hc
  · decide
  · decide
  · decide
  · decide
  · exact ne_of_isDigit (natDigits_isDigit _ c hc) (by decide)
  · rcases hc with rfl | hc2
    · decide
    · exact base36_ne_slash (suffix_chars hrand c hc2)

theorem findRow_append_fresh (rows : List OrderRow) (r : OrderRow)
    (hfresh : ∀ x ∈ rows, x.id ≠ r.id) :
    findRow (rows ++ [r]) r.id = some r := by
  induction rows with
  | nil => simp [findRow, List.find?]
  | cons x xs ih =>
    rw [List.cons_append, findRow, List.find?]
    rw [show decide (x.id = r.id) = false from decide_eq_false (hfresh x (by simp))]
    exact ih (fun y hy => hfresh y (by simp [hy]))

/-- C3: round-trip fidelity.  For a checkout that succeeds (valid body,
store configured and not failing) whose generated id is fresh, reading
GET `/order/:id` at that id against the post-checkout store answers 200
and its `items` field is exactly the items array submitted at checkout
(numbers modelled as integers). -/
theorem claim_C3 (body : JSValue) (env : Env) (items : List JSValue)
    (bp2 : Except String JSValue)
    (hnull : body ≠ .null)
    (hname : truthyO (jsGet body "name") = true)
    (hphone : truthyO (jsGet body "phone") = true)
    (haddr : truthyO (jsGet body "address") = true)
    (hitems : jsGet body "items" = some (.arr items))
    (hne : items ≠ [])
    (hvalid : findInvalidItem items = .ok none)
    (hdb : env.dbPresent = true)
    (hfail : env.dbFail = none)
    (hrand : randShape env.randS)
    (hfresh : ∀ x ∈ env.rows, x.id ≠ genOrderId env) :
    (route "POST" "/checkout" (.ok body) env).1.status = 201
    ∧ (route "GET" ("/order/" ++ genOrderId env) bp2
        { env with rows := (route "POST" "/checkout" (.ok body) env).2 }).1.status = 200
    ∧ jsGet (((route "GET" ("/order/" ++ genOrderId env) bp2
        { env with rows := (route "POST" "/checkout" (.ok body) env).2 }).1.body).getD .null)
        "items" = some (.arr items) := by
  have hco := handleCheckout_valid body env items hnull hname hphone haddr hitems hne hvalid
    hdb hfresh
  rw [hfail] at hco
  have hrow : (route "POST" "/checkout" (.ok body) env).2
      = env.rows ++ [checkoutRow env (getJS (jsGet body "name"))
          (getJS (jsGet body "phone")) (getJS (jsGet body "address")) items] := by
    rw [route_post_checkout, hco]
  have hresp2 : (route "GET" ("/order/" ++ genOrderId env) bp2
      { env with rows := (route "POST" "/checkout" (.ok body) env).2 }).1
      = jsonResp 200 (.obj
          [("id", .str (genOrderId env)),
           ("name", getJS (jsGet body "name")),
           ("phone", getJS (jsGet body "phone")),
           ("address", getJS (jsGet body "address")),
           ("items", .arr items),
           ("created_at", .str (isoOfMs ((((env.nowMs2 / 1000 : Nat) : Int)) * 1000)))]) := by
    rw [route_get_order, pathPop_order _ (genOrderId_no_slash env hrand)]
    show handleOrder (genOrderId env) _ = _
    rw [handleOrder]
    rw [if_neg (by simp [hdb])]
    simp only [hfail, hrow]
    rw [show genOrderId env
        = (checkoutRow env (getJS (jsGet body "name")) (getJS (jsGet body "phone"))
            (getJS (jsGet body "address")) items).id from rfl]
    rw [findRow_append_fresh env.rows _ hfresh]
    have hparse : jsonParse (checkoutRow env (getJS (jsGet body "name"))
        (getJS (jsGet body "phone")) (getJS (jsGet body "address")) items).items
        = .ok (.arr items) := jsonParse_stringify (.arr items)
    simp only [hparse]
    rfl
  refine ⟨?_, ?_, ?_⟩
  · rw [route_post_checkout, hco]
    rfl
  · rw [hresp2]
    rfl
  · rw [hresp2]
    simp [jsGet, jsonResp]

/-- Witness: C3 at a concrete checkout followed by the read-back. -/
theorem claim_C3_witness :
    (route "POST" "/checkout" (.ok validBody) baseEnv).1.status = 201
    ∧ (route "GET" ("/order/" ++ genOrderId baseEnv) (.error "x")
        { baseEnv with rows := (route "POST" "/checkout" (.ok validBody) baseEnv).2 }).1.status
        = 200
    ∧ jsGet (((route "GET" ("/order/" ++ genOrderId baseEnv) (.error "x")
        { baseEnv with rows := (route "POST" "/checkout" (.ok validBody) baseEnv).2 }).1.body).getD
          .null) "items"
        = some (.arr [.obj [("id", .str "x"), ("quantity", .num 2)]]) :=
  claim_C3 validBody baseEnv [.obj [("id", .str "x"), ("quantity", .num 2)]] (.error "x")
    (by decide) (by decide) (by decide) (by decide) (by decide) (by decide) rfl
    (by decide) rfl
    (Or.inr ⟨['k', '3', 'j', '9', 'q', '2', 'v', '1', 'z', 'p', 'a'],
      by decide, by decide, rfl⟩)
    (by decide)

/-! ## C5 — order-id format and uniqueness -/

theorem strData_inj {s t : String} (h : s.data = t.data) : s = t := by
  cases s
  cases t
  exact congrArg String.mk h

theorem underscore_split_inj : ∀ (a b s t : List Char),
    (∀ c ∈ a, c ≠ '_') → (∀ c ∈ b, c ≠ '_') →
    a ++ '_' :: s = b ++ '_' :: t → a = b ∧ s = t := by
  intro a
  induction a with
  | nil =>
    intro b s t _ hb h
    cases b with
    | nil =>
      simp only [List.nil_append, List.cons.injEq] at h
      exact ⟨rfl, h.2⟩
    | cons d bs =>
      simp only [List.nil_append, List.cons_append, List.cons.injEq] at h
      exact absurd h.1.symm (hb d (by simp))
  | cons c as ih =>
    intro b s t ha hb h
    cases b with
    | nil =>
      simp only [List.cons_append, List.nil_append, List.cons.injEq] at h
      exact absurd h.1 (ha c (by simp))
    | cons d bs =>
      simp only [List.cons_append, List.cons.injEq] at h
      obtain ⟨rfl, h2⟩ := h
      obtain ⟨hab, hst⟩ := ih bs s t (fun y hy => ha y (by simp [hy]))
        (fun y hy => hb y (by simp [hy])) h2
      exact ⟨by rw [hab], hst⟩

theorem genOrderId_inj (e1 e2 : Env) :
    genOrderId e1 = genOrderId e2
      ↔ e1.nowMs = e2.nowMs ∧ jsSubstr e1.randS 2 9 = jsSubstr e2.randS 2 9 := by
  constructor
  · intro h
    have hd := congrArg String.data h
    rw [genOrderId_data, genOrderId_data] at hd
    simp only [List.cons.injEq, true_and] at hd
    obtain ⟨hn, hs⟩ := underscore_split_inj _ _ _ _
      (fun c hc => ne_of_isDigit (natDigits_isDigit _ c hc) (by decide))
      (fun c hc => ne_of_isDigit (natDigits_isDigit _ c hc) (by decide)) hd
    exact ⟨natDigits_injective hn, strData_inj (by simp [jsSubstr, strMk_data, hs])⟩
  · rintro ⟨hn, hs⟩
    rw [genOrderId, genOrderId, hn, hs]

theorem c5_ne {resp : HttpResponse} {rows : List OrderRow} (h : resp.status ≠ 201) :
    ¬((resp, rows).1.status = 201) := h

theorem handleCheckout_201_fresh (bp : Except String JSValue) (env : Env)
    (h201 : (handleCheckout bp env).1.status = 201) :
    ∀ x ∈ env.rows, x.id ≠ genOrderId env := by
  intro x hx heq
  apply absurd h201
  have hany : (env.rows.any fun y => decide (y.id = genOrderId env)) = true := by
    rw [List.any_eq_true]
    exact ⟨x, hx, by simp [heq]⟩
  rw [handleCheckout.eq_def]
  split
  · exact c5_ne (by rw [checkoutCatch_status]; decide)
  · split
    · exact c5_ne (by rw [checkoutCatch_status]; decide)
    · simp only []
      split
      · exact c5_ne (by rw [errResp_status]; decide)
      · split
        · exact c5_ne (by rw [errResp_status]; decide)
        · split
          · exact c5_ne (by rw [checkoutCatch_status]; decide)
          · exact c5_ne (by rw [jsonResp_status]; decide)
          · split
            · exact c5_ne (by rw [errResp_status]; decide)
            · split
              · exact c5_ne (by rw [checkoutCatch_status]; decide)
              · exact c5_ne (by rw [checkoutCatch_status]; decide)

/-- C5 (amended): a successful checkout returns
`orderId = ord_<millisecond-timestamp>_<suffix>` where the suffix is
the first **at most 9** base-36 characters of the random fraction's
expansion (exactly 9 only when the expansion is long enough); two
generated ids are equal iff their timestamps and truncated random
suffixes both agree; and a 201 is only possible when the generated id
differs from every id already stored (the table's primary key makes a
duplicate insert throw), which is what keeps returned ids unique across
repeated calls. -/
theorem claim_C5 (env : Env) (body : JSValue) (items : List JSValue)
    (hnull : body ≠ .null)
    (hname : truthyO (jsGet body "name") = true)
    (hphone : truthyO (jsGet body "phone") = true)
    (haddr : truthyO (jsGet body "address") = true)
    (hitems : jsGet body "items" = some (.arr items))
    (hne : items ≠ [])
    (hvalid : findInvalidItem items = .ok none)
    (hdb : env.dbPresent = true)
    (hfail : env.dbFail = none)
    (hrand : randShape env.randS)
    (hfresh : ∀ x ∈ env.rows, x.id ≠ genOrderId env) :
    ((route "POST" "/checkout" (.ok body) env).1.status = 201
      ∧ jsGet (((route "POST" "/checkout" (.ok body) env).1.body).getD .null) "orderId"
          = some (.str (genOrderId env)))
    ∧ genOrderId env = "ord_" ++ natStr env.nowMs ++ "_" ++ jsSubstr env.randS 2 9
    ∧ (jsSubstr env.randS 2 9).data.length ≤ 9
    ∧ (∀ c ∈ (jsSubstr env.randS 2 9).data, c.isDigit = true ∨ ('a' ≤ c ∧ c ≤ 'z'))
    ∧ (∀ env2 : Env, genOrderId env = genOrderId env2
        ↔ env.nowMs = env2.nowMs ∧ jsSubstr env.randS 2 9 = jsSubstr env2.randS 2 9)
    ∧ (∀ bp : Except String JSValue,
        (route "POST" "/checkout" bp env).1.status = 201 →
        ∀ x ∈ env.rows, x.id ≠ genOrderId env) := by
  have hco := handleCheckout_valid body env items hnull hname hphone haddr hitems hne hvalid
    hdb hfresh
  rw [hfail] at hco
  refine ⟨⟨?_, ?_⟩, rfl, ?_, ?_, fun env2 => genOrderId_inj env env2, ?_⟩
  · rw [route_post_checkout, hco]
    rfl
  · rw [route_post_checkout, hco]
    simp [checkoutOkBody, jsonResp, jsGet]
  · rw [jsSubstr, strMk_data]
    exact List.length_take_le 9 _
  · intro c hc
    rw [jsSubstr, strMk_data] at hc
    exact suffix_chars hrand c hc
  · intro bp h201
    rw [route_post_checkout] at h201
    exact handleCheckout_201_fresh bp env h201

/-- C5 as frozen is false: with `Math.random()` returning 0.5 — whose
base-36 expansion is the single digit `i` — a successful checkout
returns `ord_1700000000000_i`, whose random suffix has length 1, not
the claimed 9. -/
theorem claim_C5_counterexample :
    (route "POST" "/checkout" (.ok validBody) { baseEnv with randS := "0.i" }).1.status = 201
    ∧ jsGet (((route "POST" "/checkout" (.ok validBody)
        { baseEnv with randS := "0.i" }).1.body).getD .null) "orderId"
        = some (.str "ord_1700000000000_i")
    ∧ (jsSubstr "0.i" 2 9).data.length = 1 := by
  have hco := handleCheckout_valid validBody { baseEnv with randS := "0.i" }
    [.obj [("id", .str "x"), ("quantity", .num 2)]]
    (by decide) (by decide) (by decide) (by decide) (by decide) (by decide) rfl
    (by decide) (by decide)
  refine ⟨?_, ?_, by decide⟩
  · rw [route_post_checkout, hco]
    rfl
  · rw [route_post_checkout, hco]
    simp [checkoutOkBody, jsGet, genOrderId, natStr, natDigits, digitChar, jsSubstr, baseEnv,
      jsonResp, getJS]

/-- Witness: the amended C5 at the concrete base environment. -/
theorem claim_C5_witness :
    ((route "POST" "/checkout" (.ok validBody) baseEnv).1.status = 201
      ∧ jsGet (((route "POST" "/checkout" (.ok validBody) baseEnv).1.body).getD .null) "orderId"
          = some (.str (genOrderId baseEnv)))
    ∧ genOrderId baseEnv
        = "ord_" ++ natStr baseEnv.nowMs ++ "_" ++ jsSubstr baseEnv.randS 2 9
    ∧ (jsSubstr baseEnv.randS 2 9).data.length ≤ 9
    ∧ (∀ c ∈ (jsSubstr baseEnv.randS 2 9).data, c.isDigit = true ∨ ('a' ≤ c ∧ c ≤ 'z'))
    ∧ (∀ env2 : Env, genOrderId baseEnv = genOrderId env2
        ↔ baseEnv.nowMs = env2.nowMs ∧ jsSubstr baseEnv.randS 2 9 = jsSubstr env2.randS 2 9)
    ∧ (∀ bp : Except String JSValue,
        (route "POST" "/checkout" bp baseEnv).1.status = 201 →
        ∀ x ∈ baseEnv.rows, x.id ≠ genOrderId baseEnv) :=
  claim_C5 baseEnv validBody [.obj [("id", .str "x"), ("quantity", .num 2)]]
    (by decide) (by decide) (by decide) (by decide) (by decide) (by decide) rfl
    (by decide) rfl
    (Or.inr ⟨['k', '3', 'j', '9', 'q', '2', 'v', '1', 'z', 'p', 'a'],
      by decide, by decide, rfl⟩)
    (by decide)
